import Mathlib

/-!
Verification of the `carf` instrumentation actor (`src-tauri/src/frida_service.rs`).

The file shallowly embeds `FridaContext` and its operations.  All calls into the
external frida toolkit are modelled by an explicit environment (`FridaEnv`) whose
fields give the outcome of each toolkit call; every operation additionally reports
the list of toolkit calls it performed and the list of events it emitted, so that
"no toolkit call is made" and "emits the event exactly once" are statable.

Machine integers: `session_id`/`script_id` are Rust `u64` counters advanced with
`saturating_add(1)`; they are modelled as `Nat` advanced with `min (n + 1) (2^64 - 1)`.
The leaked script handles (`Box::into_raw` / `Box::from_raw`) are modelled by the
`allocated` list of live script allocations.
-/

set_option linter.unusedVariables false

/-- Largest value of a Rust `u64`. -/
def U64MAX : Nat := 2 ^ 64 - 1

/-- Rust `u64::saturating_add(1)` on a value that fits in a `u64`. -/
def satAdd1 (n : Nat) : Nat := min (n + 1) U64MAX

/-- The process-list cache TTL, `Duration::from_secs(2)`, in milliseconds.
Timestamps (`Instant`) are modelled as `Nat` milliseconds. -/
def TTL_MS : Nat := 2000

/-- The NUL character `'\0'`. -/
def nulChar : Char := Char.ofNat 0

/-- Rust `value.contains('\0')`. -/
def hasNul (s : String) : Bool := s.data.contains nulChar

/-- The error message produced by `validate_no_nul` (frida_service.rs:663). -/
def nulMsg (label : String) : String :=
  label ++ " contains a NUL (\\0) byte, which frida-rust APIs do not support"

/-- Model of `validate_no_nul` (frida_service.rs:663-671). -/
def validate_no_nul (label : String) (value : String) : Except String Unit :=
  if hasNul value then Except.error (nulMsg label) else Except.ok ()

/- Association lists model the two `HashMap<u64, _>` registries.  `alPut` has
`HashMap::insert` semantics (replace an existing key), `alDel` has
`HashMap::remove` semantics, `alModify` models mutation through `get_mut`. -/

/-- Model of `HashMap::get`. -/
def alGet {α : Type} : List (Nat × α) → Nat → Option α
  | [], _ => none
  | (k, v) :: rest, k' => if k = k' then some v else alGet rest k'

/-- Model of `HashMap::insert` (replaces an existing entry for the key). -/
def alPut {α : Type} : List (Nat × α) → Nat → α → List (Nat × α)
  | [], k, v => [(k, v)]
  | (k0, v0) :: rest, k, v =>
    if k0 = k then (k, v) :: rest else (k0, v0) :: alPut rest k v

/-- Model of `HashMap::remove`. -/
def alDel {α : Type} : List (Nat × α) → Nat → List (Nat × α)
  | [], _ => []
  | (k0, v0) :: rest, k =>
    if k0 = k then rest else (k0, v0) :: alDel rest k

/-- In-place update of the entry at a key (`HashMap::get_mut` followed by mutation). -/
def alModify {α : Type} : List (Nat × α) → Nat → (α → α) → List (Nat × α)
  | [], _, _ => []
  | (k0, v0) :: rest, k, f =>
    if k0 = k then (k0, f v0) :: rest else (k0, v0) :: alModify rest k f

/-- The keys of an association list. -/
def alKeys {α : Type} (l : List (Nat × α)) : List Nat := l.map Prod.fst

/-- Model of `ProcessInfo` (frida_service.rs:27-31). -/
structure ProcessInfo where
  pid : Nat
  name : String
deriving DecidableEq

/-- Model of `ProcessListCache` (frida_service.rs:33-38), `fetched_at` in model milliseconds. -/
structure ProcessListCache where
  device_id : String
  fetched_at : Nat
  processes : List ProcessInfo
deriving DecidableEq

/-- Model of `SessionInfo` (frida_service.rs:40-44). -/
structure SessionInfo where
  session_id : Nat
  script_id : Nat
deriving DecidableEq

/-- Model of `ScriptInfo` (frida_service.rs:46-49). -/
structure ScriptInfo where
  script_id : Nat
deriving DecidableEq

/-- Model of `SessionRecord` (frida_service.rs:51-59); the toolkit `Session`/`Device`
handles are not data, their behaviour lives in `FridaEnv`. -/
structure SessionRecord where
  device_id : String
  pid : Nat
  script_ids : List Nat
deriving DecidableEq

/-- Model of `ScriptRecord` (frida_service.rs:71-76); the leaked `*mut Script` is tracked
through `FridaContext.allocated`. -/
structure ScriptRecord where
  session_id : Nat
deriving DecidableEq

/-- A JSON value, for the payloads built with `json!`. -/
inductive JVal where
  | jnull : JVal
  | jstr : String → JVal
  | jnum : Nat → JVal
  | jarr : List JVal → JVal
  | jobj : List (String × JVal) → JVal

/-- The payload of a toolkit `Message::Send` as used by `on_message`
(fields `r#type`, `id`, `result`, `returns` of `m.payload`); the field values
are opaque to this crate, so they are modelled as JSON values. -/
structure SendPayload where
  ty : JVal
  id : JVal
  result : JVal
  returns : JVal

/-- The payload of a toolkit `Message::Error` as used by `on_message`. -/
structure ErrorPayload where
  description : String
  stack : String
  file_name : String
  line_number : Nat
  column_number : Nat

/-- The toolkit's log severity; `debugFormat` is `format!("{:?}", m.level)`. -/
inductive LogLevel where
  | info
  | warning
  | error

/-- Rendering `format!("{:?}", level)` of the toolkit's log level. -/
def LogLevel.debugFormat : LogLevel → String
  | .info => "Info"
  | .warning => "Warning"
  | .error => "Error"

/-- The four toolkit-native callback payload shapes (`frida::Message`). -/
inductive FMessage where
  | send : SendPayload → FMessage
  | log : LogLevel → String → FMessage
  | error : ErrorPayload → FMessage
  | other : JVal → FMessage

/-- Events emitted through `app.emit`, one constructor per `json!` payload shape:
`frida_session_attached`, `frida_session_detached`, `frida_script_message`. -/
inductive Event where
  | session_attached : Nat → Nat → String → Nat → Event
  | session_detached : Nat → String → Event
  | script_message : Nat → Nat → JVal → Option (List Nat) → Event

/-- The toolkit calls an operation can perform. -/
inductive TkCall where
  | get_device_by_id : String → TkCall
  | enumerate_processes : String → TkCall
  | device_attach : String → Nat → TkCall
  | session_detach : Nat → TkCall
  | create_script : Nat → TkCall
  | handle_message : Nat → TkCall
  | script_load : Nat → TkCall
  | script_unload : Nat → TkCall
  | script_post : Nat → TkCall
  | device_spawn : String → String → TkCall
  | device_resume : String → Nat → TkCall
  | device_kill : String → Nat → TkCall

/-- The environment: outcomes of the external toolkit calls (keyed by the handle
ids the code passes in), the current time, and the embedded agent bundle
(`include_bytes!` of the build artifact, already decoded from UTF-8). -/
structure FridaEnv where
  get_device_by_id : String → Except String Unit
  enumerate_processes : String → List ProcessInfo
  device_attach : String → Nat → Except String Unit
  is_detached : Nat → Bool
  session_detach : Nat → Except String Unit
  create_script : Nat → Except String Unit
  handle_message : Nat → Except String Unit
  script_load : Nat → Except String Unit
  script_unload : Nat → Except String Unit
  post : Nat → Except String Unit
  device_spawn : String → String → Option (List String) → Except String Nat
  device_resume : String → Nat → Except String Unit
  device_kill : String → Nat → Except String Unit
  now : Nat
  default_script : String

/-- The actor state `FridaContext` (frida_service.rs:173-182).  `allocated` is
the set of script ids whose leaked `Box<Script>` is currently live. -/
structure FridaContext where
  sessions : List (Nat × SessionRecord)
  scripts : List (Nat × ScriptRecord)
  next_session_id : Nat
  next_script_id : Nat
  process_list_cache : Option ProcessListCache
  allocated : List Nat
deriving DecidableEq

/-- Model of `FridaContext::new` (frida_service.rs:184-203). -/
def initCtx : FridaContext := ⟨[], [], 1, 1, none, []⟩

/-- The result of one operation: the returned value, the new actor state, the
events emitted and the toolkit calls performed, in order. -/
structure OpResult (α : Type) where
  res : Except String α
  ctx : FridaContext
  events : List Event
  calls : List TkCall

/-- The non-cached tail of `list_processes` (frida_service.rs:291-324). -/
def list_processes_fresh (ctx : FridaContext) (env : FridaEnv) (device_id : String) :
    OpResult (List ProcessInfo) :=
  match env.get_device_by_id device_id with
  | .error e => ⟨.error e, ctx, [], [.get_device_by_id device_id]⟩
  | .ok _ =>
    let infos := env.enumerate_processes device_id
    ⟨.ok infos,
     { ctx with process_list_cache := some ⟨device_id, env.now, infos⟩ },
     [], [.get_device_by_id device_id, .enumerate_processes device_id]⟩

/-- Model of `FridaContext::list_processes` (frida_service.rs:272-325). -/
def list_processes (ctx : FridaContext) (env : FridaEnv) (device_id : String) :
    OpResult (List ProcessInfo) :=
  match validate_no_nul "device_id" device_id with
  | .error e => ⟨.error e, ctx, [], []⟩
  | .ok _ =>
    if device_id = "socket" then
      ⟨.error ("Device 'socket' is not supported"), ctx, [], []⟩
    else
      match ctx.process_list_cache with
      | some cache =>
        if cache.device_id = device_id ∧ env.now - cache.fetched_at < TTL_MS then
          ⟨.ok cache.processes, ctx, [], []⟩
        else
          list_processes_fresh ctx env device_id
      | none => list_processes_fresh ctx env device_id

/-- The sentinel written by `build.rs` when the agent bundle is absent. -/
def missingSentinel : String := "__CARF_AGENT_MISSING__"

/-- Substring search on character lists (Rust `str::contains(&str)`). -/
def charListSub (needle : List Char) : List Char → Bool
  | [] => needle.isEmpty
  | c :: cs => needle.isPrefixOf (c :: cs) || charListSub needle cs

/-- Rust `hay.contains(needle)` for string needles. -/
def strContainsSub (hay needle : String) : Bool :=
  charListSub needle.data hay.data

/-- Rust `s.trim().is_empty()`: every character is whitespace. -/
def trimEmpty (s : String) : Bool := s.data.all (fun c => c.isWhitespace)

/-- Model of `FridaContext::load_default_script` (frida_service.rs:442-539).  The
`from_utf8` step is implicit (the modelled bundle is already a string); the
leaked `Box<Script>` is the entry in `allocated`, reclaimed (`Box::from_raw`)
on `handle_message`/`load` failure. -/
def load_default_script (ctx : FridaContext) (env : FridaEnv) (session_id : Nat) :
    OpResult ScriptInfo :=
  if strContainsSub env.default_script missingSentinel then
    ⟨.error ("Default agent bundle is missing. Build it first: `bun run compile`"), ctx, [], []⟩
  else if trimEmpty env.default_script then
    ⟨.error ("Embedded agent script (src-frida/dist/index.js) is empty"), ctx, [], []⟩
  else
    match validate_no_nul "default_script" env.default_script with
    | .error e => ⟨.error e, ctx, [], []⟩
    | .ok _ =>
      match alGet ctx.sessions session_id with
      | none => ⟨.error ("Unknown session_id"), ctx, [], []⟩
      | some _ =>
        if env.is_detached session_id then
          ⟨.error ("Session is detached"), ctx, [], []⟩
        else
          let script_id := ctx.next_script_id
          let ctx1 : FridaContext := { ctx with next_script_id := satAdd1 ctx.next_script_id }
          match env.create_script session_id with
          | .error e => ⟨.error e, ctx1, [], [.create_script session_id]⟩
          | .ok _ =>
            let ctx2 : FridaContext := { ctx1 with allocated := script_id :: ctx1.allocated }
            match env.handle_message script_id with
            | .error e =>
              ⟨.error e, { ctx2 with allocated := ctx2.allocated.erase script_id }, [],
               [.create_script session_id, .handle_message script_id]⟩
            | .ok _ =>
              match env.script_load script_id with
              | .error e =>
                ⟨.error e, { ctx2 with allocated := ctx2.allocated.erase script_id }, [],
                 [.create_script session_id, .handle_message script_id, .script_load script_id]⟩
              | .ok _ =>
                ⟨.ok ⟨script_id⟩,
                 { ctx2 with
                     scripts := alPut ctx2.scripts script_id ⟨session_id⟩,
                     sessions := alModify ctx2.sessions session_id
                       (fun r => { r with script_ids := r.script_ids ++ [script_id] }) },
                 [], [.create_script session_id, .handle_message script_id,
                      .script_load script_id]⟩

/-- Model of `FridaContext::attach` (frida_service.rs:327-398). -/
def attach (ctx : FridaContext) (env : FridaEnv) (device_id : String) (pid : Nat) :
    OpResult SessionInfo :=
  match validate_no_nul "device_id" device_id with
  | .error e => ⟨.error e, ctx, [], []⟩
  | .ok _ =>
    match env.get_device_by_id device_id with
    | .error e => ⟨.error e, ctx, [], [.get_device_by_id device_id]⟩
    | .ok _ =>
      match env.device_attach device_id pid with
      | .error e =>
        ⟨.error e, ctx, [], [.get_device_by_id device_id, .device_attach device_id pid]⟩
      | .ok _ =>
        let session_id := ctx.next_session_id
        let ctx1 : FridaContext :=
          { ctx with
              next_session_id := satAdd1 ctx.next_session_id,
              sessions := alPut ctx.sessions session_id ⟨device_id, pid, []⟩ }
        let r := load_default_script ctx1 env session_id
        match r.res with
        | .error e =>
          ⟨.error e, { r.ctx with sessions := alDel r.ctx.sessions session_id }, r.events,
           .get_device_by_id device_id :: .device_attach device_id pid :: r.calls⟩
        | .ok info =>
          ⟨.ok ⟨session_id, info.script_id⟩, r.ctx,
           r.events ++ [.session_attached session_id info.script_id device_id pid],
           .get_device_by_id device_id :: .device_attach device_id pid :: r.calls⟩

/-- Model of `FridaContext::unload_script` (frida_service.rs:541-576). -/
def unload_script (ctx : FridaContext) (env : FridaEnv) (script_id : Nat) : OpResult Unit :=
  match alGet ctx.scripts script_id with
  | none => ⟨.error ("Unknown script_id"), ctx, [], []⟩
  | some record =>
    let ctx1 : FridaContext := { ctx with scripts := alDel ctx.scripts script_id }
    let ctx2 : FridaContext :=
      { ctx1 with
          sessions := alModify ctx1.sessions record.session_id
            (fun r => { r with script_ids := r.script_ids.filter (fun id => id != script_id) }) }
    match alGet ctx2.sessions record.session_id with
    | some _ =>
      if env.is_detached record.session_id then
        ⟨.ok (), { ctx2 with allocated := ctx2.allocated.erase script_id }, [], []⟩
      else
        ⟨env.script_unload script_id, { ctx2 with allocated := ctx2.allocated.erase script_id },
         [], [.script_unload script_id]⟩
    | none => ⟨.ok (), { ctx2 with allocated := ctx2.allocated.erase script_id }, [], []⟩

/-- The cascading unload loop of `detach` (frida_service.rs:410-412); each
result is discarded (`let _ = self.unload_script(script_id)`). -/
def unload_many (env : FridaEnv) : FridaContext → List Nat → FridaContext × List TkCall
  | ctx, [] => (ctx, [])
  | ctx, id :: rest =>
    let r := unload_script ctx env id
    let p := unload_many env r.ctx rest
    (p.1, r.calls ++ p.2)

/-- Model of `FridaContext::detach` (frida_service.rs:400-440). -/
def detach (ctx : FridaContext) (env : FridaEnv) (session_id : Nat) : OpResult Unit :=
  match alGet ctx.sessions session_id with
  | none => ⟨.error ("Unknown session_id"), ctx, [], []⟩
  | some record0 =>
    let p := unload_many env ctx record0.script_ids
    match alGet p.1.sessions session_id with
    | none => ⟨.error ("Unknown session_id"), p.1, [], p.2⟩
    | some record =>
      let ctx2 : FridaContext := { p.1 with sessions := alDel p.1.sessions session_id }
      match env.session_detach session_id with
      | .ok _ =>
        ⟨.ok (), ctx2, [.session_detached session_id "user"],
         p.2 ++ [.session_detach session_id]⟩
      | .error e =>
        if env.is_detached session_id then
          ⟨.ok (), ctx2, [.session_detached session_id "disposed"],
           p.2 ++ [.session_detach session_id]⟩
        else
          ⟨.error e, { ctx2 with sessions := alPut ctx2.sessions session_id record }, [],
           p.2 ++ [.session_detach session_id]⟩

/-- Model of `FridaContext::script_post` (frida_service.rs:578-606).  Here `message_json` is
the `serde_json::to_string` serialization of the message (infallible for a
`serde_json::Value`). -/
def script_post (ctx : FridaContext) (env : FridaEnv) (script_id : Nat)
    (message_json : String) (data : Option (List Nat)) : OpResult Unit :=
  match alGet ctx.scripts script_id with
  | none => ⟨.error ("Unknown script_id"), ctx, [], []⟩
  | some record =>
    match alGet ctx.sessions record.session_id with
    | none => ⟨.error ("Session is detached"), ctx, [], []⟩
    | some _ =>
      if env.is_detached record.session_id then
        ⟨.error ("Session is detached"), ctx, [], []⟩
      else
        match validate_no_nul "message" message_json with
        | .error e => ⟨.error e, ctx, [], []⟩
        | .ok _ => ⟨env.post script_id, ctx, [], [.script_post script_id]⟩

/-- The argv validation loop of `spawn` (frida_service.rs:619-623). -/
def validate_argv : Nat → List String → Except String Unit
  | _, [] => .ok ()
  | i, a :: rest =>
    match validate_no_nul ("argv[" ++ toString i ++ "]") a with
    | .error e => .error e
    | .ok _ => validate_argv (i + 1) rest

/-- Model of `FridaContext::spawn` (frida_service.rs:608-636).  Note the source clears
the process cache after validating `device_id`/`program` but before the argv
loop. -/
def spawn (ctx : FridaContext) (env : FridaEnv) (device_id : String) (program : String)
    (argv : Option (List String)) : OpResult Nat :=
  match validate_no_nul "device_id" device_id with
  | .error e => ⟨.error e, ctx, [], []⟩
  | .ok _ =>
    match validate_no_nul "program" program with
    | .error e => ⟨.error e, ctx, [], []⟩
    | .ok _ =>
      let ctx1 : FridaContext := { ctx with process_list_cache := none }
      match validate_argv 0 (argv.getD []) with
      | .error e => ⟨.error e, ctx1, [], []⟩
      | .ok _ =>
        match env.get_device_by_id device_id with
        | .error e => ⟨.error e, ctx1, [], [.get_device_by_id device_id]⟩
        | .ok _ =>
          match env.device_spawn device_id program argv with
          | .error e =>
            ⟨.error e, ctx1, [],
             [.get_device_by_id device_id, .device_spawn device_id program]⟩
          | .ok pid =>
            ⟨.ok pid, ctx1, [],
             [.get_device_by_id device_id, .device_spawn device_id program]⟩

/-- Model of `FridaContext::resume` (frida_service.rs:638-647). -/
def resume (ctx : FridaContext) (env : FridaEnv) (device_id : String) (pid : Nat) :
    OpResult Unit :=
  match validate_no_nul "device_id" device_id with
  | .error e => ⟨.error e, ctx, [], []⟩
  | .ok _ =>
    match env.get_device_by_id device_id with
    | .error e => ⟨.error e, ctx, [], [.get_device_by_id device_id]⟩
    | .ok _ =>
      ⟨env.device_resume device_id pid, ctx, [],
       [.get_device_by_id device_id, .device_resume device_id pid]⟩

/-- Model of `FridaContext::kill` (frida_service.rs:649-660). -/
def kill (ctx : FridaContext) (env : FridaEnv) (device_id : String) (pid : Nat) :
    OpResult Unit :=
  match validate_no_nul "device_id" device_id with
  | .error e => ⟨.error e, ctx, [], []⟩
  | .ok _ =>
    let ctx1 : FridaContext := { ctx with process_list_cache := none }
    match env.get_device_by_id device_id with
    | .error e => ⟨.error e, ctx1, [], [.get_device_by_id device_id]⟩
    | .ok _ =>
      ⟨env.device_kill device_id pid, ctx1, [],
       [.get_device_by_id device_id, .device_kill device_id pid]⟩

/-- Model of `TauriScriptHandler` (frida_service.rs:673-678); the `AppHandle` is the
event sink and is not data. -/
structure TauriScriptHandler where
  session_id : Nat
  script_id : Nat

/-- The `message_value` built by `on_message` (frida_service.rs:682-713). -/
def messageValue : FMessage → JVal
  | .send m =>
    .jobj [("type", .jstr "send"),
           ("payload", .jobj [("type", m.ty), ("id", m.id), ("result", m.result),
                              ("returns", m.returns)])]
  | .log level payload =>
    .jobj [("type", .jstr "log"),
           ("payload", .jobj [("level", .jstr level.debugFormat),
                              ("payload", .jstr payload)])]
  | .error e =>
    .jobj [("type", .jstr "error"),
           ("payload", .jobj [("description", .jstr e.description), ("stack", .jstr e.stack),
                              ("file_name", .jstr e.file_name),
                              ("line_number", .jnum e.line_number),
                              ("column_number", .jnum e.column_number)])]
  | .other v => .jobj [("type", .jstr "other"), ("payload", v)]

/-- Model of `TauriScriptHandler::on_message` (frida_service.rs:680-724): the list of
events emitted for one delivered callback. -/
def on_message (h : TauriScriptHandler) (message : FMessage) (data : Option (List Nat)) :
    List Event :=
  [Event.script_message h.session_id h.script_id (messageValue message) data]

/-- Modelled from the spec (§4.4): the tag of the normalized event, by payload shape. -/
def specMessageType : FMessage → String
  | .send _ => "send"
  | .log _ _ => "log"
  | .error _ => "error"
  | .other _ => "other"

/-- Modelled from the spec (§4.4 and C9): the documented payload fields of the
normalized event (`type`/`id`/`result`/`returns` for send; `level`/`payload` for
log; `description`/`stack`/`file_name`/`line_number`/`column_number` for error;
the raw value for other). -/
def specMessagePayload : FMessage → JVal
  | .send m => .jobj [("type", m.ty), ("id", m.id), ("result", m.result), ("returns", m.returns)]
  | .log level payload =>
    .jobj [("level", .jstr level.debugFormat), ("payload", .jstr payload)]
  | .error e =>
    .jobj [("description", .jstr e.description), ("stack", .jstr e.stack),
           ("file_name", .jstr e.file_name), ("line_number", .jnum e.line_number),
           ("column_number", .jnum e.column_number)]
  | .other v => v

/-- Modelled from the spec: the single forwarded event
`{session_id, script_id, message: {type, payload}, data?}`. -/
def specScriptEvent (session_id script_id : Nat) (m : FMessage)
    (data : Option (List Nat)) : Event :=
  .script_message session_id script_id
    (.jobj [("type", .jstr (specMessageType m)), ("payload", specMessagePayload m)]) data

/-- One public operation of the actor, with its arguments. -/
inductive Act where
  | list_processes : String → Act
  | attach : String → Nat → Act
  | detach : Nat → Act
  | load_default_script : Nat → Act
  | unload_script : Nat → Act
  | script_post : Nat → String → Option (List Nat) → Act
  | spawn : String → String → Option (List String) → Act
  | resume : String → Nat → Act
  | kill : String → Nat → Act

/-- The state after running one public operation. -/
def applyAct (ctx : FridaContext) (env : FridaEnv) : Act → FridaContext
  | .list_processes d => (list_processes ctx env d).ctx
  | .attach d p => (attach ctx env d p).ctx
  | .detach s => (detach ctx env s).ctx
  | .load_default_script s => (load_default_script ctx env s).ctx
  | .unload_script i => (unload_script ctx env i).ctx
  | .script_post i m dat => (script_post ctx env i m dat).ctx
  | .spawn d p a => (spawn ctx env d p a).ctx
  | .resume d p => (resume ctx env d p).ctx
  | .kill d p => (kill ctx env d p).ctx

/-- Reachability: `Reach c c'` iff `c'` arises from `c` by running finitely many
public operations, under arbitrary toolkit behaviour. -/
inductive Reach : FridaContext → FridaContext → Prop where
  | refl (c : FridaContext) : Reach c c
  | step (c c' : FridaContext) (env : FridaEnv) (a : Act) :
      Reach c c' → Reach c (applyAct c' env a)

/-- Bidirectional registry consistency (spec §3, §8): every id in a session's
`script_ids` has a matching script whose `session_id` points back, and vice
versa. -/
def Consistent (ctx : FridaContext) : Prop :=
  (∀ k r, alGet ctx.sessions k = some r →
     ∀ i ∈ r.script_ids, ∃ s, alGet ctx.scripts i = some s ∧ s.session_id = k)
  ∧ (∀ i s, alGet ctx.scripts i = some s →
     ∃ r, alGet ctx.sessions s.session_id = some r ∧ i ∈ r.script_ids)

/-- The inductive well-formedness invariant of the actor state: unique registry
keys, all registered ids below the allocation counters, registry consistency,
and the live script allocations being exactly the registered scripts. -/
structure WellFormed (ctx : FridaContext) : Prop where
  nodup_sessions : (alKeys ctx.sessions).Nodup
  nodup_scripts : (alKeys ctx.scripts).Nodup
  sessions_bound : ∀ k ∈ alKeys ctx.sessions, k < ctx.next_session_id
  scripts_bound : ∀ k ∈ alKeys ctx.scripts, k < ctx.next_script_id
  sids_bound : ∀ k r, alGet ctx.sessions k = some r → ∀ i ∈ r.script_ids, i < ctx.next_script_id
  sids_nodup : ∀ k r, alGet ctx.sessions k = some r → r.script_ids.Nodup
  consistent : Consistent ctx
  alloc_iff : ∀ i, i ∈ ctx.allocated ↔ i ∈ alKeys ctx.scripts
  alloc_nodup : ctx.allocated.Nodup

/-- Both allocation counters still fit in a `u64`. -/
def CountersOk (ctx : FridaContext) : Prop :=
  ctx.next_session_id ≤ U64MAX ∧ ctx.next_script_id ≤ U64MAX

/-- The session id returned by a public operation, when it returns one. -/
def sessionIdOf (ctx : FridaContext) (env : FridaEnv) : Act → Option Nat
  | .attach d p =>
    match (attach ctx env d p).res with
    | .ok info => some info.session_id
    | .error _ => none
  | _ => none

/-- The script id returned by a public operation, when it returns one. -/
def scriptIdOf (ctx : FridaContext) (env : FridaEnv) : Act → Option Nat
  | .attach d p =>
    match (attach ctx env d p).res with
    | .ok info => some info.script_id
    | .error _ => none
  | .load_default_script s =>
    match (load_default_script ctx env s).res with
    | .ok info => some info.script_id
    | .error _ => none
  | _ => none



/-- A toolkit environment in which every call succeeds. -/
def okEnv : FridaEnv :=
  ⟨fun _ => .ok (), fun _ => [⟨1, "init"⟩], fun _ _ => .ok (), fun _ => false,
   fun _ => .ok (), fun _ => .ok (), fun _ => .ok (), fun _ => .ok (), fun _ => .ok (),
   fun _ => .ok (), fun _ _ _ => .ok 4242, fun _ _ => .ok (), fun _ _ => .ok (),
   0, "agent"⟩

/-- An environment in which script creation fails (so `load_default_script` fails). -/
def createFailEnv : FridaEnv := { okEnv with create_script := fun _ => .error "create_script failed" }

/-- An environment in which the toolkit detach call fails while the session does
not report itself detached. -/
def detachFailEnv : FridaEnv := { okEnv with session_detach := fun _ => .error "detach failed" }

/-- An environment in which the toolkit detach call fails but the session
reports itself already detached. -/
def disposedEnv : FridaEnv :=
  { okEnv with session_detach := fun _ => .error "detach failed", is_detached := fun _ => true }

/-- An environment whose embedded bundle is the sentinel written by `build.rs`. -/
def sentinelEnv : FridaEnv :=
  { okEnv with default_script := "// __CARF_AGENT_MISSING__\n// Run: bun run compile\n" }

/-- A state with one session (id 1) owning one script (id 1). -/
def ctx1s : FridaContext := ⟨[(1, ⟨"local", 10, [1]⟩)], [(1, ⟨1⟩)], 2, 2, none, [1]⟩

/-- A state with a populated process-list cache. -/
def cacheCtx : FridaContext := ⟨[], [], 1, 1, some ⟨"local", 100, [⟨7, "proc"⟩]⟩, []⟩

/-- The state after `n` attach calls whose script load failed at creation. -/
def ctxN (n : Nat) : FridaContext :=
  ⟨[], [], min (1 + n) U64MAX, min (1 + n) U64MAX, none, []⟩

/-- The state in which both id counters have saturated at `u64::MAX`. -/
def ctxSat : FridaContext := ⟨[], [], U64MAX, U64MAX, none, []⟩

/-- Claim C1 as stated: after every public operation of the actor, run from any
reachable state under any toolkit behaviour and including every failure path,
the registry is bidirectionally consistent. -/
def C1Statement : Prop :=
  ∀ c env a, Reach initCtx c → Consistent (applyAct c env a)

/-- Claim C3 as stated: every operation that accepts a string rejects a NUL byte
with the `validate_no_nul` error and performs no toolkit call. -/
def C3Statement : Prop :=
  (∀ c e d, hasNul d = true →
     (list_processes c e d).res = .error (nulMsg "device_id") ∧
       (list_processes c e d).calls = []) ∧
  (∀ c e d p, hasNul d = true →
     (attach c e d p).res = .error (nulMsg "device_id") ∧ (attach c e d p).calls = []) ∧
  (∀ c e d prog argv,
     (hasNul d = true ∨ hasNul prog = true ∨ ∃ a ∈ argv.getD [], hasNul a = true) →
     (∃ label, (spawn c e d prog argv).res = .error (nulMsg label)) ∧
       (spawn c e d prog argv).calls = []) ∧
  (∀ c e d p, hasNul d = true →
     (resume c e d p).res = .error (nulMsg "device_id") ∧ (resume c e d p).calls = []) ∧
  (∀ c e d p, hasNul d = true →
     (kill c e d p).res = .error (nulMsg "device_id") ∧ (kill c e d p).calls = []) ∧
  (∀ c e i m dat, hasNul m = true →
     (∃ label, (script_post c e i m dat).res = .error (nulMsg label)) ∧
       (script_post c e i m dat).calls = [])

/-- Claim C7 as stated: ids returned by the operations are strictly increasing
over any actor run starting from the initial state, and the counters start at 1. -/
def C7Statement : Prop :=
  (initCtx.next_session_id = 1 ∧ initCtx.next_script_id = 1) ∧
  (∀ c1 env1 a1 i1 c2 env2 a2 i2, Reach initCtx c1 →
     sessionIdOf c1 env1 a1 = some i1 → Reach (applyAct c1 env1 a1) c2 →
     sessionIdOf c2 env2 a2 = some i2 → i1 < i2) ∧
  (∀ c1 env1 a1 i1 c2 env2 a2 i2, Reach initCtx c1 →
     scriptIdOf c1 env1 a1 = some i1 → Reach (applyAct c1 env1 a1) c2 →
     scriptIdOf c2 env2 a2 = some i2 → i1 < i2)

/-- Claim C8 as stated: a spawn call rejected because of a NUL byte in an argv
element leaves the process cache unchanged. -/
def C8Statement : Prop :=
  ∀ c e d prog argv, (∃ a ∈ argv.getD [], hasNul a = true) →
    ∃ msg, (spawn c e d prog argv).res = .error msg ∧
      (spawn c e d prog argv).ctx.process_list_cache = c.process_list_cache

/-! Helper lemmas: association lists. -/

theorem alKeys_nil {α : Type} : alKeys ([] : List (Nat × α)) = [] := rfl

theorem alKeys_cons {α : Type} (k0 : Nat) (v0 : α) (l : List (Nat × α)) :
    alKeys ((k0, v0) :: l) = k0 :: alKeys l := rfl

theorem alGet_nil {α : Type} (k : Nat) : alGet ([] : List (Nat × α)) k = none := rfl

theorem alGet_cons {α : Type} (k0 k : Nat) (v : α) (l : List (Nat × α)) :
    alGet ((k0, v) :: l) k = if k0 = k then some v else alGet l k := rfl

theorem alGet_alPut {α : Type} (l : List (Nat × α)) (k k' : Nat) (v : α) :
    alGet (alPut l k v) k' = if k = k' then some v else alGet l k' := by
  induction l with
  | nil => simp [alPut, alGet]
  | cons hd tl ih =>
    obtain ⟨k0, v0⟩ := hd
    by_cases h0 : k0 = k
    · subst h0
      by_cases h1 : k0 = k' <;> simp [alPut, alGet, h1]
    · have h0' : ¬ k = k0 := fun h => h0 h.symm
      by_cases h1 : k0 = k'
      · subst h1
        simp [alPut, h0, alGet, h0']
      · simp [alPut, h0, alGet, h1, ih]

theorem mem_alKeys_iff_get {α : Type} (l : List (Nat × α)) (k : Nat) :
    k ∈ alKeys l ↔ ∃ v, alGet l k = some v := by
  induction l with
  | nil => simp [alKeys_nil, alGet]
  | cons hd tl ih =>
    obtain ⟨k0, v0⟩ := hd
    rw [alKeys_cons, List.mem_cons]
    by_cases h : k0 = k
    · subst h
      simp [alGet]
    · have h' : ¬ k = k0 := fun he => h he.symm
      simp only [alGet_cons, if_neg h]
      constructor
      · rintro (he | hm)
        · exact absurd he h'
        · exact ih.mp hm
      · intro he
        exact Or.inr (ih.mpr he)

theorem alGet_eq_none_of_not_mem {α : Type} (l : List (Nat × α)) (k : Nat)
    (h : k ∉ alKeys l) : alGet l k = none := by
  cases hg : alGet l k with
  | none => rfl
  | some v => exact absurd ((mem_alKeys_iff_get l k).mpr ⟨v, hg⟩) h

theorem alGet_alDel {α : Type} (l : List (Nat × α)) (k k' : Nat)
    (hnd : (alKeys l).Nodup) :
    alGet (alDel l k) k' = if k = k' then none else alGet l k' := by
  induction l with
  | nil => simp [alDel, alGet]
  | cons hd tl ih =>
    obtain ⟨k0, v0⟩ := hd
    rw [alKeys_cons, List.nodup_cons] at hnd
    by_cases h0 : k0 = k
    · subst h0
      rw [alDel, if_pos rfl]
      by_cases h1 : k0 = k'
      · subst h1
        simp [alGet_eq_none_of_not_mem tl k0 hnd.1]
      · simp [alGet, h1]
    · have h0' : ¬ k = k0 := fun h => h0 h.symm
      by_cases h1 : k0 = k'
      · subst h1
        simp [alDel, h0, alGet, h0']
      · simp [alDel, h0, alGet, h1, ih hnd.2]

theorem alGet_alModify {α : Type} (l : List (Nat × α)) (k k' : Nat) (f : α → α) :
    alGet (alModify l k f) k' =
      if k = k' then (alGet l k).map f else alGet l k' := by
  induction l with
  | nil => simp [alModify, alGet]
  | cons hd tl ih =>
    obtain ⟨k0, v0⟩ := hd
    by_cases h0 : k0 = k
    · subst h0
      by_cases h1 : k0 = k' <;> simp [alModify, alGet, h1]
    · have h0' : ¬ k = k0 := fun h => h0 h.symm
      by_cases h1 : k0 = k'
      · subst h1
        simp [alModify, h0, alGet, h0']
      · simp [alModify, h0, alGet, h1, ih]

theorem alKeys_alModify {α : Type} (l : List (Nat × α)) (k : Nat) (f : α → α) :
    alKeys (alModify l k f) = alKeys l := by
  induction l with
  | nil => rfl
  | cons hd tl ih =>
    obtain ⟨k0, v0⟩ := hd
    by_cases h0 : k0 = k
    · simp [alModify, h0, alKeys_cons]
    · simp only [alModify, if_neg h0, alKeys_cons, ih]

theorem mem_alKeys_alPut {α : Type} (l : List (Nat × α)) (k k' : Nat) (v : α) :
    k' ∈ alKeys (alPut l k v) ↔ k' = k ∨ k' ∈ alKeys l := by
  rw [mem_alKeys_iff_get, mem_alKeys_iff_get]
  by_cases h : k = k'
  · subst h
    simp [alGet_alPut]
  · have h' : ¬ k' = k := fun he => h he.symm
    simp [alGet_alPut, h, h']

theorem nodup_alKeys_alPut {α : Type} (l : List (Nat × α)) (k : Nat) (v : α)
    (h : (alKeys l).Nodup) : (alKeys (alPut l k v)).Nodup := by
  induction l with
  | nil => simp [alPut, alKeys_cons, alKeys_nil]
  | cons hd tl ih =>
    obtain ⟨k0, v0⟩ := hd
    rw [alKeys_cons, List.nodup_cons] at h
    by_cases h0 : k0 = k
    · subst h0
      rw [alPut, if_pos rfl, alKeys_cons, List.nodup_cons]
      exact h
    · rw [alPut, if_neg h0, alKeys_cons, List.nodup_cons]
      refine ⟨fun hmem => ?_, ih h.2⟩
      rcases (mem_alKeys_alPut tl k k0 v).mp hmem with h1 | h1
      · exact h0 h1
      · exact h.1 h1

theorem mem_alKeys_alDel {α : Type} (l : List (Nat × α)) (k k' : Nat)
    (hnd : (alKeys l).Nodup) :
    k' ∈ alKeys (alDel l k) ↔ k' ∈ alKeys l ∧ k' ≠ k := by
  constructor
  · intro hmem
    obtain ⟨v, hv⟩ := (mem_alKeys_iff_get _ _).mp hmem
    rw [alGet_alDel l k k' hnd] at hv
    by_cases h : k = k'
    · simp [h] at hv
    · rw [if_neg h] at hv
      exact ⟨(mem_alKeys_iff_get _ _).mpr ⟨v, hv⟩, fun he => h he.symm⟩
  · rintro ⟨hmem, hne⟩
    obtain ⟨v, hv⟩ := (mem_alKeys_iff_get _ _).mp hmem
    refine (mem_alKeys_iff_get _ _).mpr ⟨v, ?_⟩
    rw [alGet_alDel l k k' hnd, if_neg (fun he => hne he.symm)]
    exact hv

theorem nodup_alKeys_alDel {α : Type} (l : List (Nat × α)) (k : Nat)
    (h : (alKeys l).Nodup) : (alKeys (alDel l k)).Nodup := by
  induction l with
  | nil => simp [alDel, alKeys_nil]
  | cons hd tl ih =>
    obtain ⟨k0, v0⟩ := hd
    rw [alKeys_cons, List.nodup_cons] at h
    by_cases h0 : k0 = k
    · subst h0
      rw [alDel, if_pos rfl]
      exact h.2
    · rw [alDel, if_neg h0, alKeys_cons, List.nodup_cons]
      refine ⟨fun hmem => ?_, ih h.2⟩
      exact h.1 ((mem_alKeys_alDel tl k k0 h.2).mp hmem).1

theorem alDel_alPut_fresh {α : Type} (l : List (Nat × α)) (k : Nat) (v : α)
    (h : k ∉ alKeys l) : alDel (alPut l k v) k = l := by
  induction l with
  | nil => simp [alPut, alDel]
  | cons hd tl ih =>
    obtain ⟨k0, v0⟩ := hd
    rw [alKeys_cons, List.mem_cons] at h
    push_neg at h
    have h0 : ¬ k0 = k := fun he => h.1 he.symm
    rw [alPut, if_neg h0, alDel, if_neg h0, ih h.2]

theorem alModify_alPut {α : Type} (l : List (Nat × α)) (k : Nat) (v : α) (f : α → α) :
    alModify (alPut l k v) k f = alPut l k (f v) := by
  induction l with
  | nil => simp [alPut, alModify]
  | cons hd tl ih =>
    obtain ⟨k0, v0⟩ := hd
    by_cases h0 : k0 = k
    · subst h0
      simp [alPut, alModify]
    · simp [alPut, h0, alModify, ih]

/-! Helper lemmas: the saturating counter. -/

theorem u64max_eq : U64MAX = 18446744073709551615 := by norm_num [U64MAX]

theorem satAdd1_le_max (n : Nat) : satAdd1 n ≤ U64MAX := by
  unfold satAdd1
  omega

theorem le_satAdd1 (n : Nat) (h : n ≤ U64MAX) : n ≤ satAdd1 n := by
  unfold satAdd1
  omega

theorem satAdd1_of_lt (n : Nat) (h : n < U64MAX) : satAdd1 n = n + 1 := by
  unfold satAdd1
  omega

theorem satAdd1_max : satAdd1 U64MAX = U64MAX := by
  unfold satAdd1
  omega

/-! Characterization lemmas for the operations. -/

theorem script_post_state (c : FridaContext) (e : FridaEnv) (i : Nat) (m : String)
    (dat : Option (List Nat)) : (script_post c e i m dat).ctx = c := by
  unfold script_post
  repeat' split
  all_goals rfl

theorem resume_state (c : FridaContext) (e : FridaEnv) (d : String) (p : Nat) :
    (resume c e d p).ctx = c := by
  unfold resume
  repeat' split
  all_goals rfl

theorem kill_state (c : FridaContext) (e : FridaEnv) (d : String) (p : Nat) :
    (kill c e d p).ctx = c ∨ (kill c e d p).ctx = { c with process_list_cache := none } := by
  unfold kill
  repeat' split
  all_goals first
    | (left; rfl)
    | (right; rfl)

theorem spawn_state (c : FridaContext) (e : FridaEnv) (d : String) (prog : String)
    (argv : Option (List String)) :
    (spawn c e d prog argv).ctx = c ∨
      (spawn c e d prog argv).ctx = { c with process_list_cache := none } := by
  unfold spawn
  repeat' split
  all_goals first
    | (left; rfl)
    | (right; rfl)

theorem list_processes_state (c : FridaContext) (e : FridaEnv) (d : String) :
    (list_processes c e d).ctx = c ∨
      (list_processes c e d).ctx =
        { c with process_list_cache := some ⟨d, e.now, e.enumerate_processes d⟩ } := by
  unfold list_processes list_processes_fresh
  repeat' split
  all_goals first
    | (left; rfl)
    | (right; rfl)

theorem unload_cases (c : FridaContext) (e : FridaEnv) (i : Nat) :
    (alGet c.scripts i = none ∧ unload_script c e i = ⟨.error ("Unknown script_id"), c, [], []⟩) ∨
    (∃ r res cs, alGet c.scripts i = some r ∧
      unload_script c e i =
        ⟨res,
         { c with
             scripts := alDel c.scripts i,
             sessions := alModify c.sessions r.session_id
               (fun rr => { rr with script_ids := rr.script_ids.filter (fun id => id != i) }),
             allocated := c.allocated.erase i },
         [], cs⟩) := by
  cases hg : alGet c.scripts i with
  | none =>
    left
    refine ⟨rfl, ?_⟩
    simp [unload_script, hg]
  | some r =>
    right
    unfold unload_script
    rw [hg]
    cases hs : alGet (alModify c.sessions r.session_id
        (fun rr => { rr with script_ids := rr.script_ids.filter (fun id => id != i) })) r.session_id with
    | none => exact ⟨r, .ok (), [], rfl, by simp [hs]⟩
    | some srec =>
      cases hd : e.is_detached r.session_id with
      | true => exact ⟨r, .ok (), [], rfl, by simp [hs, hd]⟩
      | false => exact ⟨r, e.script_unload i, [.script_unload i], rfl, by simp [hs, hd]⟩

theorem load_cases (c : FridaContext) (e : FridaEnv) (s : Nat) :
    (∃ msg, load_default_script c e s = ⟨.error msg, c, [], []⟩) ∨
    (∃ msg cs, load_default_script c e s =
       ⟨.error msg, { c with next_script_id := satAdd1 c.next_script_id }, [], cs⟩) ∨
    ((∃ r0, alGet c.sessions s = some r0) ∧ e.is_detached s = false ∧
      load_default_script c e s =
        ⟨.ok ⟨c.next_script_id⟩,
         { c with
             next_script_id := satAdd1 c.next_script_id,
             allocated := c.next_script_id :: c.allocated,
             scripts := alPut c.scripts c.next_script_id ⟨s⟩,
             sessions := alModify c.sessions s
               (fun r => { r with script_ids := r.script_ids ++ [c.next_script_id] }) },
         [], [.create_script s, .handle_message c.next_script_id,
              .script_load c.next_script_id]⟩) := by
  cases hA : strContainsSub e.default_script missingSentinel with
  | true =>
    refine Or.inl ⟨"Default agent bundle is missing. Build it first: `bun run compile`", ?_⟩
    simp [load_default_script, hA]
  | false =>
  cases hB : trimEmpty e.default_script with
  | true =>
    refine Or.inl ⟨"Embedded agent script (src-frida/dist/index.js) is empty", ?_⟩
    simp [load_default_script, hA, hB]
  | false =>
  cases hC : hasNul e.default_script with
  | true =>
    refine Or.inl ⟨nulMsg "default_script", ?_⟩
    simp [load_default_script, validate_no_nul, hA, hB, hC]
  | false =>
  cases hD : alGet c.sessions s with
  | none =>
    refine Or.inl ⟨"Unknown session_id", ?_⟩
    simp [load_default_script, validate_no_nul, hA, hB, hC, hD]
  | some r0 =>
  cases hE : e.is_detached s with
  | true =>
    refine Or.inl ⟨"Session is detached", ?_⟩
    simp [load_default_script, validate_no_nul, hA, hB, hC, hD, hE]
  | false =>
  cases hF : e.create_script s with
  | error msg =>
    refine Or.inr (Or.inl ⟨msg, [.create_script s], ?_⟩)
    simp [load_default_script, validate_no_nul, hA, hB, hC, hD, hE, hF]
  | ok u =>
  cases hG : e.handle_message c.next_script_id with
  | error msg =>
    refine Or.inr (Or.inl ⟨msg, [.create_script s, .handle_message c.next_script_id], ?_⟩)
    simp [load_default_script, validate_no_nul, hA, hB, hC, hD, hE, hF, hG]
  | ok u2 =>
  cases hH : e.script_load c.next_script_id with
  | error msg =>
    refine Or.inr (Or.inl ⟨msg,
      [.create_script s, .handle_message c.next_script_id, .script_load c.next_script_id], ?_⟩)
    simp [load_default_script, validate_no_nul, hA, hB, hC, hD, hE, hF, hG, hH]
  | ok u3 =>
    refine Or.inr (Or.inr ⟨⟨r0, ?_⟩, ?_, ?_⟩)
    · first
      | exact hD
      | rfl
    · first
      | exact hE
      | rfl
    · simp [load_default_script, validate_no_nul, hA, hB, hC, hD, hE, hF, hG, hH]

theorem attach_cases (c : FridaContext) (e : FridaEnv) (d : String) (p : Nat) :
    (∃ msg cs, attach c e d p = ⟨.error msg, c, [], cs⟩) ∨
    (∃ msg cs b, attach c e d p =
       ⟨.error msg,
        { c with
            next_session_id := satAdd1 c.next_session_id,
            next_script_id := b,
            sessions := alDel (alPut c.sessions c.next_session_id ⟨d, p, []⟩)
              c.next_session_id },
        [], cs⟩ ∧ (b = c.next_script_id ∨ b = satAdd1 c.next_script_id)) ∨
    (attach c e d p =
       ⟨.ok ⟨c.next_session_id, c.next_script_id⟩,
        { c with
            next_session_id := satAdd1 c.next_session_id,
            next_script_id := satAdd1 c.next_script_id,
            sessions := alPut c.sessions c.next_session_id ⟨d, p, [c.next_script_id]⟩,
            scripts := alPut c.scripts c.next_script_id ⟨c.next_session_id⟩,
            allocated := c.next_script_id :: c.allocated },
        [.session_attached c.next_session_id c.next_script_id d p],
        [.get_device_by_id d, .device_attach d p, .create_script c.next_session_id,
         .handle_message c.next_script_id, .script_load c.next_script_id]⟩) := by
  cases hV : hasNul d with
  | true =>
    exact Or.inl ⟨nulMsg "device_id", [], by simp [attach, validate_no_nul, hV]⟩
  | false =>
  cases hDev : e.get_device_by_id d with
  | error msg =>
    exact Or.inl ⟨msg, [.get_device_by_id d], by simp [attach, validate_no_nul, hV, hDev]⟩
  | ok u =>
  cases hAt : e.device_attach d p with
  | error msg =>
    exact Or.inl ⟨msg, [.get_device_by_id d, .device_attach d p],
      by simp [attach, validate_no_nul, hV, hDev, hAt]⟩
  | ok u2 =>
    rcases load_cases
        { c with
            next_session_id := satAdd1 c.next_session_id,
            sessions := alPut c.sessions c.next_session_id ⟨d, p, []⟩ }
        e c.next_session_id with
      ⟨msg, hL⟩ | ⟨msg, csL, hL⟩ | ⟨hex, hdet, hL⟩
    · refine Or.inr (Or.inl ⟨msg, [.get_device_by_id d, .device_attach d p],
        c.next_script_id, ?_, Or.inl rfl⟩)
      simp [attach, validate_no_nul, hV, hDev, hAt, hL]
    · refine Or.inr (Or.inl ⟨msg, .get_device_by_id d :: .device_attach d p :: csL,
        satAdd1 c.next_script_id, ?_, Or.inr rfl⟩)
      simp [attach, validate_no_nul, hV, hDev, hAt, hL]
    · refine Or.inr (Or.inr ?_)
      simp [attach, validate_no_nul, hV, hDev, hAt, hL, alModify_alPut]

theorem unload_many_spec (e : FridaEnv) (l : List Nat) :
    ∀ (c : FridaContext) (sid : Nat) (rec : SessionRecord),
      (alKeys c.scripts).Nodup → c.allocated.Nodup → l.Nodup →
      alGet c.sessions sid = some rec →
      (∀ i ∈ l, alGet c.scripts i = some ⟨sid⟩) →
      (∀ j, alGet (unload_many e c l).1.scripts j =
         if j ∈ l then none else alGet c.scripts j) ∧
      (∃ ids, alGet (unload_many e c l).1.sessions sid =
           some ⟨rec.device_id, rec.pid, ids⟩ ∧
         ∀ j, j ∈ ids ↔ j ∈ rec.script_ids ∧ j ∉ l) ∧
      (∀ k, k ≠ sid → alGet (unload_many e c l).1.sessions k = alGet c.sessions k) ∧
      (∀ j, j ∈ (unload_many e c l).1.allocated ↔ j ∈ c.allocated ∧ j ∉ l) ∧
      (alKeys (unload_many e c l).1.scripts).Nodup ∧
      (unload_many e c l).1.allocated.Nodup ∧
      alKeys (unload_many e c l).1.sessions = alKeys c.sessions ∧
      (unload_many e c l).1.next_session_id = c.next_session_id ∧
      (unload_many e c l).1.next_script_id = c.next_script_id ∧
      (unload_many e c l).1.process_list_cache = c.process_list_cache := by
  induction l with
  | nil =>
    intro c sid rec hnds hnda hlnd hrec hmem
    refine ⟨fun j => by simp [unload_many], ⟨rec.script_ids, ?_, fun j => by simp⟩,
      fun k _ => by simp [unload_many], fun j => by simp [unload_many],
      by simpa [unload_many] using hnds, by simpa [unload_many] using hnda,
      by simp [unload_many], by simp [unload_many], by simp [unload_many],
      by simp [unload_many]⟩
    simpa [unload_many] using hrec
  | cons i rest ih =>
    intro c sid rec hnds hnda hlnd hrec hmem
    have hgi : alGet c.scripts i = some ⟨sid⟩ := hmem i (List.mem_cons_self i rest)
    obtain ⟨hnotin, hrestnd⟩ := List.nodup_cons.mp hlnd
    rcases unload_cases c e i with ⟨hnone, _⟩ | ⟨r, res, cs, hg, hu⟩
    · rw [hnone] at hgi
      cases hgi
    · have hr : r = ⟨sid⟩ := by
        rw [hg] at hgi
        exact Option.some_injective _ hgi
      subst hr
      set c' : FridaContext :=
        { c with
            scripts := alDel c.scripts i,
            sessions := alModify c.sessions sid
              (fun rr => { rr with script_ids := rr.script_ids.filter (fun id => id != i) }),
            allocated := c.allocated.erase i } with hc'
      have hstep : (unload_many e c (i :: rest)).1 = (unload_many e c' rest).1 := by
        simp [unload_many, hu, hc']
      have hnds' : (alKeys c'.scripts).Nodup := nodup_alKeys_alDel _ _ hnds
      have hnda' : c'.allocated.Nodup := hnda.erase i
      have hrec' : alGet c'.sessions sid =
          some ⟨rec.device_id, rec.pid, rec.script_ids.filter (fun id => id != i)⟩ := by
        simp [hc', alGet_alModify, hrec]
      have hmem' : ∀ j ∈ rest, alGet c'.scripts j = some ⟨sid⟩ := by
        intro j hj
        have hij : ¬ i = j := fun he => hnotin (he ▸ hj)
        simp only [hc']
        rw [alGet_alDel _ _ _ hnds, if_neg hij]
        exact hmem j (List.mem_cons_of_mem _ hj)
      obtain ⟨ih1, ⟨ids, hids, hidsmem⟩, ih3, ih4, ih5, ih6, ih7, ih8, ih9, ih10⟩ :=
        ih c' sid ⟨rec.device_id, rec.pid, rec.script_ids.filter (fun id => id != i)⟩
          hnds' hnda' hrestnd hrec' hmem'
      refine ⟨?_, ⟨ids, by rw [hstep]; exact hids, ?_⟩, ?_, ?_, ?_, ?_, ?_, ?_, ?_, ?_⟩
      · intro j
        rw [hstep, ih1 j]
        by_cases hj1 : j ∈ rest
        · simp [hj1]
        · by_cases hj2 : i = j
          · subst hj2
            simp [hj1, hc', alGet_alDel _ _ _ hnds]
          · have hji : ¬ j = i := fun he => hj2 he.symm
            have hnotmem : j ∉ (i :: rest : List Nat) := by
              rw [List.mem_cons]
              push_neg
              exact ⟨hji, hj1⟩
            rw [if_neg hnotmem, if_neg hj1]
            simp only [hc']
            rw [alGet_alDel _ _ _ hnds, if_neg hj2]
      · intro j
        rw [hidsmem j]
        simp only [List.mem_filter, bne_iff_ne, ne_eq, List.mem_cons, not_or]
        tauto
      · intro k hk
        rw [hstep, ih3 k hk]
        simp only [hc']
        rw [alGet_alModify, if_neg (fun he => hk he.symm)]
      · intro j
        rw [hstep, ih4 j]
        have herase : j ∈ c'.allocated ↔ j ≠ i ∧ j ∈ c.allocated := by
          simp only [hc']
          exact hnda.mem_erase_iff
        rw [herase]
        simp only [List.mem_cons, not_or]
        tauto
      · rw [hstep]; exact ih5
      · rw [hstep]; exact ih6
      · rw [hstep, ih7]
        simp [hc', alKeys_alModify]
      · rw [hstep]; exact ih8
      · rw [hstep]; exact ih9
      · rw [hstep]; exact ih10

/-! Small derived lemmas. -/

theorem consistent_transfer (c c' : FridaContext) (h1 : c'.sessions = c.sessions)
    (h2 : c'.scripts = c.scripts) (hc : Consistent c) : Consistent c' := by
  unfold Consistent at hc ⊢
  rw [h1, h2]
  exact hc

theorem unload_unknown (c : FridaContext) (e : FridaEnv) (i : Nat)
    (h : alGet c.scripts i = none) :
    unload_script c e i = ⟨.error ("Unknown script_id"), c, [], []⟩ := by
  simp [unload_script, h]

theorem script_post_unknown (c : FridaContext) (e : FridaEnv) (i : Nat) (m : String)
    (dat : Option (List Nat)) (h : alGet c.scripts i = none) :
    script_post c e i m dat = ⟨.error ("Unknown script_id"), c, [], []⟩ := by
  simp [script_post, h]

theorem wellFormed_initCtx : WellFormed initCtx := by
  refine ⟨List.nodup_nil, List.nodup_nil, ?_, ?_, ?_, ?_, ⟨?_, ?_⟩, ?_, List.nodup_nil⟩
  · intro k hk
    simp [initCtx, alKeys] at hk
  · intro k hk
    simp [initCtx, alKeys] at hk
  · intro k r h
    simp [initCtx, alGet] at h
  · intro k r h
    simp [initCtx, alGet] at h
  · intro k r h
    simp [initCtx, alGet] at h
  · intro i s h
    simp [initCtx, alGet] at h
  · intro i
    simp [initCtx, alKeys]

theorem wellFormed_ctx1s : WellFormed ctx1s := by
  refine ⟨?_, ?_, ?_, ?_, ?_, ?_, ⟨?_, ?_⟩, ?_, ?_⟩
  · simp [ctx1s, alKeys]
  · simp [ctx1s, alKeys]
  · intro k hk
    simp [ctx1s, alKeys] at hk ⊢
    omega
  · intro k hk
    simp [ctx1s, alKeys] at hk ⊢
    omega
  · intro k r h i hi
    by_cases hk : (1 : Nat) = k
    · subst hk
      simp [ctx1s, alGet] at h
      subst h
      simp at hi
      simp [ctx1s]
      omega
    · simp [ctx1s, alGet, hk] at h
  · intro k r h
    by_cases hk : (1 : Nat) = k
    · subst hk
      simp [ctx1s, alGet] at h
      subst h
      simp
    · simp [ctx1s, alGet, hk] at h
  · intro k r h i hi
    by_cases hk : (1 : Nat) = k
    · subst hk
      simp [ctx1s, alGet] at h
      subst h
      simp at hi
      subst hi
      exact ⟨⟨1⟩, rfl, rfl⟩
    · simp [ctx1s, alGet, hk] at h
  · intro i sr h
    by_cases hk : (1 : Nat) = i
    · subst hk
      simp [ctx1s, alGet] at h
      subst h
      exact ⟨⟨"local", 10, [1]⟩, rfl, by simp⟩
    · simp [ctx1s, alGet, hk] at h
  · intro i
    simp [ctx1s, alKeys]
  · simp [ctx1s]

theorem load_consistent (c : FridaContext) (e : FridaEnv) (s : Nat)
    (hcons : Consistent c)
    (hsb : ∀ k ∈ alKeys c.scripts, k < c.next_script_id)
    (hib : ∀ k r, alGet c.sessions k = some r → ∀ i ∈ r.script_ids, i < c.next_script_id) :
    Consistent (load_default_script c e s).ctx := by
  rcases load_cases c e s with ⟨msg, hL⟩ | ⟨msg, cs, hL⟩ | ⟨⟨r0, hr0⟩, hdet, hL⟩
  · rw [hL]
    exact hcons
  · rw [hL]
    exact consistent_transfer _ _ rfl rfl hcons
  · rw [hL]
    constructor
    · intro k r hk i hi
      dsimp only at hk ⊢
      rw [alGet_alModify] at hk
      by_cases hks : s = k
      · subst hks
        rw [if_pos rfl, hr0, Option.map_some'] at hk
        have hr : r = { r0 with script_ids := r0.script_ids ++ [c.next_script_id] } :=
          (Option.some_injective _ hk).symm
        subst hr
        dsimp only at hi
        rcases List.mem_append.mp hi with hold | hnew
        · obtain ⟨sc, hsc, hside⟩ := hcons.1 s r0 hr0 i hold
          have hlt : i < c.next_script_id := hib s r0 hr0 i hold
          refine ⟨sc, ?_, hside⟩
          rw [alGet_alPut, if_neg (fun he => by omega)]
          exact hsc
        · have hi' : i = c.next_script_id := by simpa using hnew
          subst hi'
          exact ⟨⟨s⟩, by rw [alGet_alPut, if_pos rfl], rfl⟩
      · rw [if_neg hks] at hk
        obtain ⟨sc, hsc, hside⟩ := hcons.1 k r hk i hi
        have hlt : i < c.next_script_id := hib k r hk i hi
        refine ⟨sc, ?_, hside⟩
        rw [alGet_alPut, if_neg (fun he => by omega)]
        exact hsc
    · intro i sc hsc
      dsimp only at hsc ⊢
      rw [alGet_alPut] at hsc
      by_cases his : c.next_script_id = i
      · subst his
        rw [if_pos rfl] at hsc
        have hsc' : sc = ⟨s⟩ := (Option.some_injective _ hsc).symm
        subst hsc'
        refine ⟨{ r0 with script_ids := r0.script_ids ++ [c.next_script_id] }, ?_, ?_⟩
        · rw [alGet_alModify, if_pos rfl, hr0, Option.map_some']
        · simp
      · rw [if_neg his] at hsc
        obtain ⟨r1, hr1, hmem1⟩ := hcons.2 i sc hsc
        by_cases hss : s = sc.session_id
        · refine ⟨{ r0 with script_ids := r0.script_ids ++ [c.next_script_id] }, ?_, ?_⟩
          · rw [alGet_alModify, if_pos hss, hr0, Option.map_some']
          · have : r1 = r0 := by
              rw [← hss] at hr1
              exact Option.some_injective _ (hr1.symm.trans hr0)
            subst this
            exact List.mem_append_left _ hmem1
        · exact ⟨r1, by rw [alGet_alModify, if_neg hss]; exact hr1, hmem1⟩

theorem unload_consistent (c : FridaContext) (e : FridaEnv) (i : Nat)
    (hcons : Consistent c) (hnds : (alKeys c.scripts).Nodup) :
    Consistent (unload_script c e i).ctx := by
  rcases unload_cases c e i with ⟨hnone, hu⟩ | ⟨r, res, cs, hg, hu⟩
  · rw [hu]
    exact hcons
  · rw [hu]
    constructor
    · intro k rr hk j hj
      dsimp only at hk ⊢
      rw [alGet_alModify] at hk
      by_cases hks : r.session_id = k
      · subst hks
        cases hg0 : alGet c.sessions r.session_id with
        | none => rw [if_pos rfl, hg0] at hk; cases hk
        | some rr0 =>
          rw [if_pos rfl, hg0, Option.map_some'] at hk
          have hrr : rr = { rr0 with
              script_ids := rr0.script_ids.filter (fun id => id != i) } :=
            (Option.some_injective _ hk).symm
          subst hrr
          dsimp only at hj
          have hj' := List.mem_filter.mp hj
          have hji : j ≠ i := by simpa using hj'.2
          obtain ⟨sc, hsc, hside⟩ := hcons.1 r.session_id rr0 hg0 j hj'.1
          refine ⟨sc, ?_, hside⟩
          rw [alGet_alDel _ _ _ hnds, if_neg (fun he => hji he.symm)]
          exact hsc
      · rw [if_neg hks] at hk
        obtain ⟨sc, hsc, hside⟩ := hcons.1 k rr hk j hj
        have hji : ¬ i = j := by
          intro he
          subst he
          rw [hg] at hsc
          have : sc = r := Option.some_injective _ hsc.symm
          rw [this] at hside
          exact hks hside
        refine ⟨sc, ?_, hside⟩
        rw [alGet_alDel _ _ _ hnds, if_neg hji]
        exact hsc
    · intro j sc hsc
      dsimp only at hsc ⊢
      rw [alGet_alDel _ _ _ hnds] at hsc
      by_cases hij : i = j
      · rw [if_pos hij] at hsc
        cases hsc
      · rw [if_neg hij] at hsc
        obtain ⟨rr, hrr, hmemj⟩ := hcons.2 j sc hsc
        by_cases hks : r.session_id = sc.session_id
        · refine ⟨{ rr with script_ids := rr.script_ids.filter (fun id => id != i) }, ?_, ?_⟩
          · rw [alGet_alModify, if_pos hks, hks, hrr, Option.map_some']
          · dsimp only
            rw [List.mem_filter]
            exact ⟨hmemj, by simpa using fun he => hij he.symm⟩
        · exact ⟨rr, by rw [alGet_alModify, if_neg hks]; exact hrr, hmemj⟩

theorem wf_script_of_mem (c : FridaContext) (sid : Nat) (rec : SessionRecord)
    (hwf : WellFormed c) (hrec : alGet c.sessions sid = some rec) :
    ∀ i ∈ rec.script_ids, alGet c.scripts i = some ⟨sid⟩ := by
  intro i hi
  obtain ⟨sc, hsc, hside⟩ := hwf.consistent.1 sid rec hrec i hi
  cases sc
  cases hside
  exact hsc

theorem unload_many_wf_spec (c : FridaContext) (e : FridaEnv) (sid : Nat)
    (rec : SessionRecord) (hwf : WellFormed c) (hrec : alGet c.sessions sid = some rec) :
    (∀ j, alGet (unload_many e c rec.script_ids).1.scripts j =
       if j ∈ rec.script_ids then none else alGet c.scripts j) ∧
    alGet (unload_many e c rec.script_ids).1.sessions sid =
      some ⟨rec.device_id, rec.pid, []⟩ ∧
    (∀ k, k ≠ sid → alGet (unload_many e c rec.script_ids).1.sessions k =
       alGet c.sessions k) ∧
    (∀ j, j ∈ (unload_many e c rec.script_ids).1.allocated ↔
       j ∈ c.allocated ∧ j ∉ rec.script_ids) ∧
    alKeys (unload_many e c rec.script_ids).1.sessions = alKeys c.sessions ∧
    (alKeys (unload_many e c rec.script_ids).1.scripts).Nodup ∧
    (unload_many e c rec.script_ids).1.allocated.Nodup ∧
    (unload_many e c rec.script_ids).1.next_session_id = c.next_session_id ∧
    (unload_many e c rec.script_ids).1.next_script_id = c.next_script_id := by
  obtain ⟨h1, ⟨ids, hids, hidsmem⟩, h3, h4, h5, h6, h7, h8, h9, h10⟩ :=
    unload_many_spec e rec.script_ids c sid rec hwf.nodup_scripts hwf.alloc_nodup
      (hwf.sids_nodup sid rec hrec) hrec (wf_script_of_mem c sid rec hwf hrec)
  have hids_nil : ids = [] := by
    rw [List.eq_nil_iff_forall_not_mem]
    intro j hj
    obtain ⟨hj1, hj2⟩ := (hidsmem j).mp hj
    exact hj2 hj1
  subst hids_nil
  exact ⟨h1, hids, h3, h4, h7, h5, h6, h8, h9⟩

theorem detach_main (c : FridaContext) (e : FridaEnv) (sid : Nat) (rec : SessionRecord)
    (hwf : WellFormed c) (hrec : alGet c.sessions sid = some rec) :
    (e.session_detach sid = .ok () →
       detach c e sid =
         ⟨.ok (),
          { (unload_many e c rec.script_ids).1 with
              sessions := alDel (unload_many e c rec.script_ids).1.sessions sid },
          [.session_detached sid "user"],
          (unload_many e c rec.script_ids).2 ++ [.session_detach sid]⟩) ∧
    (∀ msg, e.session_detach sid = .error msg → e.is_detached sid = true →
       detach c e sid =
         ⟨.ok (),
          { (unload_many e c rec.script_ids).1 with
              sessions := alDel (unload_many e c rec.script_ids).1.sessions sid },
          [.session_detached sid "disposed"],
          (unload_many e c rec.script_ids).2 ++ [.session_detach sid]⟩) ∧
    (∀ msg, e.session_detach sid = .error msg → e.is_detached sid = false →
       detach c e sid =
         ⟨.error msg,
          { (unload_many e c rec.script_ids).1 with
              sessions := alPut (alDel (unload_many e c rec.script_ids).1.sessions sid) sid
                ⟨rec.device_id, rec.pid, []⟩ },
          [],
          (unload_many e c rec.script_ids).2 ++ [.session_detach sid]⟩) := by
  obtain ⟨h1, hids, h3, h4, h7, -, -, -, -⟩ := unload_many_wf_spec c e sid rec hwf hrec
  refine ⟨?_, ?_, ?_⟩
  · intro hok
    simp only [detach, hrec, hids, hok]
  · intro msg hmsg hdet
    simp only [detach, hrec, hids, hmsg, hdet, if_true]
  · intro msg hmsg hdet
    simp only [detach, hrec, hids, hmsg, hdet, if_false, Bool.false_eq_true]

theorem consistent_after_cleanup (c : FridaContext) (e : FridaEnv) (sid : Nat)
    (rec : SessionRecord) (hwf : WellFormed c) (hrec : alGet c.sessions sid = some rec) :
    Consistent
      { (unload_many e c rec.script_ids).1 with
          sessions := alDel (unload_many e c rec.script_ids).1.sessions sid } ∧
    Consistent
      { (unload_many e c rec.script_ids).1 with
          sessions := alPut (alDel (unload_many e c rec.script_ids).1.sessions sid) sid
            ⟨rec.device_id, rec.pid, []⟩ } := by
  obtain ⟨h1, hids, h3, h4, h7, -, -, -, -⟩ := unload_many_wf_spec c e sid rec hwf hrec
  have nodS : (alKeys (unload_many e c rec.script_ids).1.sessions).Nodup := by
    rw [h7]
    exact hwf.nodup_sessions
  have fwd_core : ∀ k r, k ≠ sid →
      alGet (unload_many e c rec.script_ids).1.sessions k = some r →
      ∀ j ∈ r.script_ids, ∃ s,
        alGet (unload_many e c rec.script_ids).1.scripts j = some s ∧ s.session_id = k := by
    intro k r hk hkr j hj
    rw [h3 k hk] at hkr
    obtain ⟨sc, hsc, hside⟩ := hwf.consistent.1 k r hkr j hj
    have hnotin : j ∉ rec.script_ids := by
      intro hmem
      have := wf_script_of_mem c sid rec hwf hrec j hmem
      rw [this] at hsc
      have hscr : sc = ⟨sid⟩ := Option.some_injective _ hsc.symm
      rw [hscr] at hside
      exact hk.symm hside
    refine ⟨sc, ?_, hside⟩
    rw [h1 j, if_neg hnotin]
    exact hsc
  have bwd_core : ∀ j s,
      alGet (unload_many e c rec.script_ids).1.scripts j = some s →
      s.session_id ≠ sid ∧ ∃ r, alGet (unload_many e c rec.script_ids).1.sessions s.session_id =
        some r ∧ j ∈ r.script_ids := by
    intro j s hj
    rw [h1 j] at hj
    by_cases hmem : j ∈ rec.script_ids
    · rw [if_pos hmem] at hj
      cases hj
    · rw [if_neg hmem] at hj
      obtain ⟨rr, hrr, hmemj⟩ := hwf.consistent.2 j s hj
      have hne : s.session_id ≠ sid := by
        intro he
        rw [he, hrec] at hrr
        have : rr = rec := Option.some_injective _ hrr.symm
        rw [this] at hmemj
        exact hmem hmemj
      refine ⟨hne, rr, ?_, hmemj⟩
      rw [h3 s.session_id hne]
      exact hrr
  constructor
  · constructor
    · intro k r hk j hj
      dsimp only at hk ⊢
      rw [alGet_alDel _ _ _ nodS] at hk
      by_cases hks : sid = k
      · rw [if_pos hks] at hk
        cases hk
      · rw [if_neg hks] at hk
        exact fwd_core k r (fun he => hks he.symm) hk j hj
    · intro j s hj
      dsimp only at hj ⊢
      obtain ⟨hne, rr, hrr, hmemj⟩ := bwd_core j s hj
      refine ⟨rr, ?_, hmemj⟩
      rw [alGet_alDel _ _ _ nodS, if_neg (fun he => hne he.symm)]
      exact hrr
  · constructor
    · intro k r hk j hj
      dsimp only at hk ⊢
      rw [alGet_alPut] at hk
      by_cases hks : sid = k
      · rw [if_pos hks] at hk
        have : r = ⟨rec.device_id, rec.pid, []⟩ := Option.some_injective _ hk.symm
        rw [this] at hj
        cases hj
      · rw [if_neg hks, alGet_alDel _ _ _ nodS, if_neg hks] at hk
        exact fwd_core k r (fun he => hks he.symm) hk j hj
    · intro j s hj
      dsimp only at hj ⊢
      obtain ⟨hne, rr, hrr, hmemj⟩ := bwd_core j s hj
      refine ⟨rr, ?_, hmemj⟩
      rw [alGet_alPut, if_neg (fun he => hne he.symm),
        alGet_alDel _ _ _ nodS, if_neg (fun he => hne he.symm)]
      exact hrr

theorem detach_consistent (c : FridaContext) (e : FridaEnv) (sid : Nat)
    (hwf : WellFormed c) : Consistent (detach c e sid).ctx := by
  cases hrec : alGet c.sessions sid with
  | none =>
    have heq : detach c e sid = ⟨.error ("Unknown session_id"), c, [], []⟩ := by
      simp [detach, hrec]
    rw [heq]
    exact hwf.consistent
  | some rec =>
    obtain ⟨hok, hdisposed, hfail⟩ := detach_main c e sid rec hwf hrec
    obtain ⟨hcons1, hcons2⟩ := consistent_after_cleanup c e sid rec hwf hrec
    cases hsd : e.session_detach sid with
    | ok u =>
      cases u
      rw [hok hsd]
      exact hcons1
    | error msg =>
      cases hdet : e.is_detached sid with
      | true =>
        rw [hdisposed msg hsd hdet]
        exact hcons1
      | false =>
        rw [hfail msg hsd hdet]
        exact hcons2

/-- Helper for C1: one public operation run from a well-formed state, under any
toolkit behaviour and on every failure path, leaves the registry consistent. -/
theorem wf_step_consistent (c : FridaContext) (e : FridaEnv) (a : Act)
    (hwf : WellFormed c) : Consistent (applyAct c e a) := by
  cases a with
  | list_processes d =>
    rcases list_processes_state c e d with h | h <;>
      exact consistent_transfer c _ (by simp [applyAct, h]) (by simp [applyAct, h])
        hwf.consistent
  | detach sid => exact detach_consistent c e sid hwf
  | load_default_script s =>
    exact load_consistent c e s hwf.consistent hwf.scripts_bound hwf.sids_bound
  | unload_script i => exact unload_consistent c e i hwf.consistent hwf.nodup_scripts
  | script_post i m dat =>
    exact consistent_transfer c _ (by simp [applyAct, script_post_state])
      (by simp [applyAct, script_post_state]) hwf.consistent
  | spawn d prog argv =>
    rcases spawn_state c e d prog argv with h | h <;>
      exact consistent_transfer c _ (by simp [applyAct, h]) (by simp [applyAct, h])
        hwf.consistent
  | resume d p =>
    exact consistent_transfer c _ (by simp [applyAct, resume_state])
      (by simp [applyAct, resume_state]) hwf.consistent
  | kill d p =>
    rcases kill_state c e d p with h | h <;>
      exact consistent_transfer c _ (by simp [applyAct, h]) (by simp [applyAct, h])
        hwf.consistent
  | attach d p =>
    rcases attach_cases c e d p with ⟨msg, cs, hA⟩ | ⟨msg, cs, b, hA, hb⟩ | hA
    · exact consistent_transfer c _ (by simp [applyAct, hA]) (by simp [applyAct, hA])
        hwf.consistent
    · have hfresh : c.next_session_id ∉ alKeys c.sessions := fun hmem =>
        absurd (hwf.sessions_bound _ hmem) (lt_irrefl _)
      refine consistent_transfer c _ ?_ ?_ hwf.consistent
      · simp only [applyAct, hA]
        exact alDel_alPut_fresh _ _ _ hfresh
      · simp [applyAct, hA]
    · show Consistent (attach c e d p).ctx
      rw [hA]
      constructor
      · intro k r hk j hj
        dsimp only at hk ⊢
        rw [alGet_alPut] at hk
        by_cases hks : c.next_session_id = k
        · subst hks
          rw [if_pos rfl] at hk
          have hr : r = ⟨d, p, [c.next_script_id]⟩ := Option.some_injective _ hk.symm
          rw [hr] at hj
          have hj' : j = c.next_script_id := by simpa using hj
          subst hj'
          exact ⟨⟨c.next_session_id⟩, by rw [alGet_alPut, if_pos rfl], rfl⟩
        · rw [if_neg hks] at hk
          obtain ⟨sc, hsc, hside⟩ := hwf.consistent.1 k r hk j hj
          have hlt : j < c.next_script_id := hwf.sids_bound k r hk j hj
          refine ⟨sc, ?_, hside⟩
          rw [alGet_alPut, if_neg (fun he => by omega)]
          exact hsc
      · intro j sc hj
        dsimp only at hj ⊢
        rw [alGet_alPut] at hj
        by_cases hjs : c.next_script_id = j
        · subst hjs
          rw [if_pos rfl] at hj
          have hsc' : sc = ⟨c.next_session_id⟩ := Option.some_injective _ hj.symm
          rw [hsc']
          refine ⟨⟨d, p, [c.next_script_id]⟩, ?_, by simp⟩
          dsimp only
          rw [alGet_alPut, if_pos rfl]
        · rw [if_neg hjs] at hj
          obtain ⟨rr, hrr, hmemj⟩ := hwf.consistent.2 j sc hj
          have hne : sc.session_id ≠ c.next_session_id := by
            intro he
            rw [he] at hrr
            exact absurd (hwf.sessions_bound c.next_session_id
              ((mem_alKeys_iff_get _ _).mpr ⟨rr, hrr⟩)) (lt_irrefl _)
          refine ⟨rr, ?_, hmemj⟩
          rw [alGet_alPut, if_neg (fun he => hne he.symm)]
          exact hrr

/-- C2: if attach creates a session but the immediate default-script load fails,
the just-created session is removed and the load error returned: after any
failed attach the sessions map, scripts map and live script allocations are
exactly as before the call; a successful attach returns the freshly allocated
session_id and script_id, both registered and cross-linked. -/
theorem C2_attach_rollback (c : FridaContext) (e : FridaEnv) (d : String) (p : Nat)
    (hwf : WellFormed c) :
    (∀ msg, (attach c e d p).res = .error msg →
       (attach c e d p).ctx.sessions = c.sessions ∧
       (attach c e d p).ctx.scripts = c.scripts ∧
       (attach c e d p).ctx.allocated = c.allocated) ∧
    (∀ info, (attach c e d p).res = .ok info →
       info.session_id = c.next_session_id ∧ info.script_id = c.next_script_id ∧
       alGet (attach c e d p).ctx.sessions info.session_id =
         some ⟨d, p, [info.script_id]⟩ ∧
       alGet (attach c e d p).ctx.scripts info.script_id = some ⟨info.session_id⟩) := by
  have hfresh : c.next_session_id ∉ alKeys c.sessions := fun hmem =>
    absurd (hwf.sessions_bound _ hmem) (lt_irrefl _)
  rcases attach_cases c e d p with ⟨msg, cs, hA⟩ | ⟨msg, cs, b, hA, hb⟩ | hA
  · constructor
    · intro m hm
      rw [hA]
      exact ⟨rfl, rfl, rfl⟩
    · intro info hinfo
      rw [hA] at hinfo
      simp at hinfo
  · constructor
    · intro m hm
      rw [hA]
      refine ⟨?_, rfl, rfl⟩
      dsimp only
      exact alDel_alPut_fresh _ _ _ hfresh
    · intro info hinfo
      rw [hA] at hinfo
      simp at hinfo
  · constructor
    · intro m hm
      rw [hA] at hm
      simp at hm
    · intro info hinfo
      rw [hA] at hinfo
      have hinfo' : info = (⟨c.next_session_id, c.next_script_id⟩ : SessionInfo) := by
        simpa using hinfo.symm
      subst hinfo'
      refine ⟨rfl, rfl, ?_, ?_⟩
      · rw [hA]
        dsimp only
        rw [alGet_alPut, if_pos rfl]
      · rw [hA]
        dsimp only
        rw [alGet_alPut, if_pos rfl]

theorem C2_witness :
    (attach initCtx createFailEnv "local" 10).res = .error "create_script failed" ∧
    (attach initCtx createFailEnv "local" 10).ctx.sessions = [] ∧
    (attach initCtx createFailEnv "local" 10).ctx.scripts = [] ∧
    (attach initCtx createFailEnv "local" 10).ctx.allocated = [] ∧
    (attach initCtx okEnv "local" 10).res = .ok ⟨1, 1⟩ ∧
    alGet (attach initCtx okEnv "local" 10).ctx.sessions 1 = some ⟨"local", 10, [1]⟩ ∧
    alGet (attach initCtx okEnv "local" 10).ctx.scripts 1 = some ⟨1⟩ := by
  have h1 := (C2_attach_rollback initCtx createFailEnv "local" 10 wellFormed_initCtx).1
    "create_script failed" rfl
  have h2 := (C2_attach_rollback initCtx okEnv "local" 10 wellFormed_initCtx).2 ⟨1, 1⟩ rfl
  exact ⟨rfl, h1.1, h1.2.1, h1.2.2, rfl, h2.2.2.1, h2.2.2.2⟩

/-- C5: on a registered session, when the toolkit detach call fails but the
session handle reports itself already detached, detach returns success and
emits `session_detached` with reason "disposed" exactly once; when the toolkit
detach succeeds it returns success and emits reason "user" exactly once. -/
theorem C5_detach_disposed (c : FridaContext) (e : FridaEnv) (sid : Nat)
    (rec : SessionRecord) (hwf : WellFormed c)
    (hrec : alGet c.sessions sid = some rec) :
    (∀ msg, e.session_detach sid = .error msg → e.is_detached sid = true →
       (detach c e sid).res = .ok () ∧
       (detach c e sid).events = [.session_detached sid "disposed"]) ∧
    (e.session_detach sid = .ok () →
       (detach c e sid).res = .ok () ∧
       (detach c e sid).events = [.session_detached sid "user"]) := by
  obtain ⟨hok, hdisposed, hfail⟩ := detach_main c e sid rec hwf hrec
  constructor
  · intro msg hmsg hdet
    rw [hdisposed msg hmsg hdet]
    exact ⟨rfl, rfl⟩
  · intro hsd
    rw [hok hsd]
    exact ⟨rfl, rfl⟩

theorem C5_witness :
    (detach ctx1s disposedEnv 1).res = .ok () ∧
    (detach ctx1s disposedEnv 1).events = [.session_detached 1 "disposed"] ∧
    (detach ctx1s okEnv 1).res = .ok () ∧
    (detach ctx1s okEnv 1).events = [.session_detached 1 "user"] := by
  have h1 := (C5_detach_disposed ctx1s disposedEnv 1 ⟨"local", 10, [1]⟩
    wellFormed_ctx1s rfl).1 "detach failed" rfl rfl
  have h2 := (C5_detach_disposed ctx1s okEnv 1 ⟨"local", 10, [1]⟩
    wellFormed_ctx1s rfl).2 rfl
  exact ⟨h1.1, h1.2, h2.1, h2.2⟩

/-- C6: whenever load_default_script returns an error (missing-sentinel bundle,
empty bundle, NUL in the bundle, unknown session, detached session, or any
toolkit failure during creation, handler registration or load), no entry is
added to the scripts map, the sessions map (and so every session's script_ids)
is unchanged, and every script allocation made before the failure is released. -/
theorem C6_load_failure_atomic (c : FridaContext) (e : FridaEnv) (s : Nat) (msg : String)
    (h : (load_default_script c e s).res = .error msg) :
    (load_default_script c e s).ctx.sessions = c.sessions ∧
    (load_default_script c e s).ctx.scripts = c.scripts ∧
    (load_default_script c e s).ctx.allocated = c.allocated := by
  rcases load_cases c e s with ⟨m2, hL⟩ | ⟨m2, cs, hL⟩ | ⟨_, _, hL⟩
  · rw [hL]
    exact ⟨rfl, rfl, rfl⟩
  · rw [hL]
    exact ⟨rfl, rfl, rfl⟩
  · rw [hL] at h
    simp at h

theorem C6_witness :
    (load_default_script ctx1s sentinelEnv 1).res =
      .error "Default agent bundle is missing. Build it first: `bun run compile`" ∧
    (load_default_script ctx1s sentinelEnv 1).ctx.sessions = ctx1s.sessions ∧
    (load_default_script ctx1s sentinelEnv 1).ctx.scripts = ctx1s.scripts ∧
    (load_default_script ctx1s sentinelEnv 1).ctx.allocated = ctx1s.allocated := by
  have h := C6_load_failure_atomic ctx1s sentinelEnv 1
    "Default agent bundle is missing. Build it first: `bun run compile`" rfl
  exact ⟨rfl, h.1, h.2.1, h.2.2⟩

/-- C10: when detach fails for a reason other than already-detached, the session
record is reinserted but with an empty script_ids list; every script the session
had before the call is gone from the scripts map, its allocation has been
reclaimed, and subsequent unload_script and script_post calls on those ids fail
with the unknown-handle error. -/
theorem C10_detach_failure_nonatomic (c : FridaContext) (e e2 : FridaEnv) (sid : Nat)
    (rec : SessionRecord) (msg m : String) (dat : Option (List Nat))
    (hwf : WellFormed c) (hrec : alGet c.sessions sid = some rec)
    (hfailmsg : e.session_detach sid = .error msg) (hnd : e.is_detached sid = false) :
    (detach c e sid).res = .error msg ∧
    alGet (detach c e sid).ctx.sessions sid = some ⟨rec.device_id, rec.pid, []⟩ ∧
    (∀ i ∈ rec.script_ids,
       alGet (detach c e sid).ctx.scripts i = none ∧
       i ∉ (detach c e sid).ctx.allocated ∧
       (unload_script (detach c e sid).ctx e2 i).res = .error ("Unknown script_id") ∧
       (script_post (detach c e sid).ctx e2 i m dat).res =
         .error ("Unknown script_id")) := by
  obtain ⟨h1, hids, h3, h4, h7, -, -, -, -⟩ := unload_many_wf_spec c e sid rec hwf hrec
  obtain ⟨_, _, hfail⟩ := detach_main c e sid rec hwf hrec
  have hD := hfail msg hfailmsg hnd
  refine ⟨by rw [hD], ?_, ?_⟩
  · rw [hD]
    dsimp only
    rw [alGet_alPut, if_pos rfl]
  · intro i hi
    have hscr : alGet (detach c e sid).ctx.scripts i = none := by
      rw [hD]
      dsimp only
      rw [h1 i, if_pos hi]
    refine ⟨hscr, ?_, ?_, ?_⟩
    · rw [hD]
      dsimp only
      intro hmem
      have hmem' : i ∈ (unload_many e c rec.script_ids).1.allocated := hmem
      exact ((h4 i).mp hmem').2 hi
    · rw [unload_unknown _ e2 i hscr]
    · rw [script_post_unknown _ e2 i m dat hscr]

theorem C10_witness :
    (detach ctx1s detachFailEnv 1).res = .error "detach failed" ∧
    alGet (detach ctx1s detachFailEnv 1).ctx.sessions 1 = some ⟨"local", 10, []⟩ ∧
    alGet (detach ctx1s detachFailEnv 1).ctx.scripts 1 = none ∧
    1 ∉ (detach ctx1s detachFailEnv 1).ctx.allocated ∧
    (unload_script (detach ctx1s detachFailEnv 1).ctx okEnv 1).res =
      .error ("Unknown script_id") ∧
    (script_post (detach ctx1s detachFailEnv 1).ctx okEnv 1 "ping" none).res =
      .error ("Unknown script_id") := by
  obtain ⟨ha, hb, hc⟩ := C10_detach_failure_nonatomic ctx1s detachFailEnv okEnv 1
    ⟨"local", 10, [1]⟩ "detach failed" "ping" none wellFormed_ctx1s rfl rfl rfl
  obtain ⟨hc1, hc2, hc3, hc4⟩ := hc 1 (by simp)
  exact ⟨ha, hb, hc1, hc2, hc3, hc4⟩

theorem list_processes_cache_hit (c : FridaContext) (e : FridaEnv) (d : String)
    (cache : ProcessListCache) (hnul : hasNul d = false) (hsock : ¬ d = "socket")
    (hc : c.process_list_cache = some cache) (hdev : cache.device_id = d)
    (ht : e.now - cache.fetched_at < TTL_MS) :
    list_processes c e d = ⟨.ok cache.processes, c, [], []⟩ := by
  simp [list_processes, validate_no_nul, hnul, hsock, hc, hdev, ht]

theorem list_processes_fresh_ok (c : FridaContext) (e : FridaEnv) (d : String)
    (hget : e.get_device_by_id d = .ok ()) :
    list_processes_fresh c e d =
      ⟨.ok (e.enumerate_processes d),
       { c with process_list_cache := some ⟨d, e.now, e.enumerate_processes d⟩ },
       [], [.get_device_by_id d, .enumerate_processes d]⟩ := by
  simp [list_processes_fresh, hget]

theorem list_processes_miss (c : FridaContext) (e : FridaEnv) (d : String)
    (hnul : hasNul d = false) (hsock : ¬ d = "socket")
    (hmiss : ∀ cache, c.process_list_cache = some cache →
       ¬(cache.device_id = d ∧ e.now - cache.fetched_at < TTL_MS)) :
    list_processes c e d = list_processes_fresh c e d := by
  cases hcache : c.process_list_cache with
  | none => simp [list_processes, validate_no_nul, hnul, hsock, hcache]
  | some cache =>
    simp [list_processes, validate_no_nul, hnul, hsock, hcache, hmiss cache hcache]

theorem list_processes_ok_cache (c : FridaContext) (e : FridaEnv) (d : String)
    (l : List ProcessInfo) (h : (list_processes c e d).res = .ok l) :
    hasNul d = false ∧ ¬ d = "socket" ∧
    ∃ t, (list_processes c e d).ctx.process_list_cache = some ⟨d, t, l⟩ := by
  cases hnul : hasNul d with
  | true =>
    have heq : list_processes c e d = ⟨.error (nulMsg "device_id"), c, [], []⟩ := by
      simp [list_processes, validate_no_nul, hnul]
    rw [heq] at h
    simp at h
  | false =>
  by_cases hsock : d = "socket"
  · subst hsock
    have heq : list_processes c e "socket" =
        ⟨.error ("Device 'socket' is not supported"), c, [], []⟩ := by
      simp [list_processes, validate_no_nul, hnul]
    rw [heq] at h
    simp at h
  · refine ⟨rfl, hsock, ?_⟩
    cases hcache : c.process_list_cache with
    | some cache =>
      by_cases hcond : cache.device_id = d ∧ e.now - cache.fetched_at < TTL_MS
      · have heq := list_processes_cache_hit c e d cache hnul hsock hcache hcond.1 hcond.2
        rw [heq] at h ⊢
        have hl : cache.processes = l := by simpa using h
        refine ⟨cache.fetched_at, ?_⟩
        dsimp only
        rw [hcache]
        obtain ⟨hd, -⟩ := hcond
        cases cache
        dsimp only at hd hl ⊢
        rw [hd, hl]
      · have heq : list_processes c e d = list_processes_fresh c e d := by
          apply list_processes_miss c e d hnul hsock
          intro cache' hc'
          rw [hcache] at hc'
          have : cache = cache' := Option.some_injective _ hc'
          rw [← this]
          exact hcond
        rw [heq] at h ⊢
        cases hget : e.get_device_by_id d with
        | error msg =>
          rw [show list_processes_fresh c e d = ⟨.error msg, c, [], [.get_device_by_id d]⟩
            from by simp [list_processes_fresh, hget]] at h
          simp at h
        | ok u =>
          cases u
          rw [list_processes_fresh_ok c e d hget] at h ⊢
          have hl : e.enumerate_processes d = l := by simpa using h
          exact ⟨e.now, by dsimp only; rw [hl]⟩
    | none =>
      have heq : list_processes c e d = list_processes_fresh c e d := by
        apply list_processes_miss c e d hnul hsock
        intro cache' hc'
        rw [hcache] at hc'
        cases hc'
      rw [heq] at h ⊢
      cases hget : e.get_device_by_id d with
      | error msg =>
        rw [show list_processes_fresh c e d = ⟨.error msg, c, [], [.get_device_by_id d]⟩
          from by simp [list_processes_fresh, hget]] at h
        simp at h
      | ok u =>
        cases u
        rw [list_processes_fresh_ok c e d hget] at h ⊢
        have hl : e.enumerate_processes d = l := by simpa using h
        exact ⟨e.now, by dsimp only; rw [hl]⟩

/-- C4: list_processes returns the cached list, performing no toolkit call and
leaving the state untouched, exactly when a cache entry exists for the same
device younger than the 2-second TTL; otherwise (different device, expired
entry, or no entry) it resolves the device, enumerates afresh, replaces the
cache with the new list and timestamp and returns the fresh list; and a second
call for the same device within the TTL of the stored timestamp returns the
identical list without any toolkit call. -/
theorem C4_process_cache (c : FridaContext) (e1 e2 : FridaEnv) (d : String)
    (cache : ProcessListCache) (l : List ProcessInfo) :
    (hasNul d = false → ¬ d = "socket" → c.process_list_cache = some cache →
       cache.device_id = d → e1.now - cache.fetched_at < TTL_MS →
       list_processes c e1 d = ⟨.ok cache.processes, c, [], []⟩) ∧
    (hasNul d = false → ¬ d = "socket" →
       (∀ cache', c.process_list_cache = some cache' →
          ¬(cache'.device_id = d ∧ e1.now - cache'.fetched_at < TTL_MS)) →
       e1.get_device_by_id d = .ok () →
       list_processes c e1 d =
         ⟨.ok (e1.enumerate_processes d),
          { c with process_list_cache := some ⟨d, e1.now, e1.enumerate_processes d⟩ },
          [], [.get_device_by_id d, .enumerate_processes d]⟩) ∧
    ((list_processes c e1 d).res = .ok l →
       ∃ t, (list_processes c e1 d).ctx.process_list_cache = some ⟨d, t, l⟩ ∧
         (e2.now - t < TTL_MS →
            list_processes (list_processes c e1 d).ctx e2 d =
              ⟨.ok l, (list_processes c e1 d).ctx, [], []⟩)) := by
  refine ⟨fun hnul hsock hc hdev ht =>
      list_processes_cache_hit c e1 d cache hnul hsock hc hdev ht,
    fun hnul hsock hmiss hget => by
      rw [list_processes_miss c e1 d hnul hsock hmiss, list_processes_fresh_ok c e1 d hget],
    ?_⟩
  intro hok
  obtain ⟨hnul, hsock, t, hcache'⟩ := list_processes_ok_cache c e1 d l hok
  exact ⟨t, hcache', fun ht2 =>
    list_processes_cache_hit _ e2 d ⟨d, t, l⟩ hnul hsock hcache' rfl ht2⟩

theorem C4_witness :
    list_processes cacheCtx { okEnv with now := 101 } "local" =
      ⟨.ok [⟨7, "proc"⟩], cacheCtx, [], []⟩ ∧
    list_processes cacheCtx { okEnv with now := 5000 } "local" =
      ⟨.ok [⟨1, "init"⟩],
       { cacheCtx with process_list_cache := some ⟨"local", 5000, [⟨1, "init"⟩]⟩ },
       [], [.get_device_by_id "local", .enumerate_processes "local"]⟩ := by
  constructor
  · exact (C4_process_cache cacheCtx { okEnv with now := 101 } okEnv "local"
      ⟨"local", 100, [⟨7, "proc"⟩]⟩ []).1 rfl (by decide) rfl rfl (by decide)
  · refine (C4_process_cache cacheCtx { okEnv with now := 5000 } okEnv "local"
      ⟨"local", 100, [⟨7, "proc"⟩]⟩ []).2.1 rfl (by decide) ?_ rfl
    intro cache' hc'
    have hc'' : some (⟨"local", 100, [⟨7, "proc"⟩]⟩ : ProcessListCache) = some cache' := hc'
    have heq := Option.some_injective _ hc''
    subst heq
    decide

/-- C9: for every toolkit callback delivered to a script handler, the message
translator produces exactly one forwarded event of the shape
`{session_id, script_id, message: {type, payload}, data?}`, where the tag is
"send"/"log"/"error"/"other" according to the payload shape, the ids are the
ones the handler was bound to at registration, and the payload fields are the
documented ones for each shape. -/
theorem C9_translator (h : TauriScriptHandler) (m : FMessage) (dat : Option (List Nat)) :
    on_message h m dat = [specScriptEvent h.session_id h.script_id m dat] := by
  cases m with
  | send p => rfl
  | log lv s => rfl
  | error ep => rfl
  | other v => rfl

theorem nulMsg_ne_unknown (label : String) : nulMsg label ≠ "Unknown script_id" := by
  intro h
  have hlen := congrArg String.length h
  rw [nulMsg, String.length_append] at hlen
  have h1 : (" contains a NUL (\\0) byte, which frida-rust APIs do not support" : String).length
      = 63 := rfl
  have h2 : ("Unknown script_id" : String).length = 17 := rfl
  rw [h1, h2] at hlen
  omega

theorem spawn_nul_device (c : FridaContext) (e : FridaEnv) (d prog : String)
    (argv : Option (List String)) (hd : hasNul d = true) :
    spawn c e d prog argv = ⟨.error (nulMsg "device_id"), c, [], []⟩ := by
  simp [spawn, validate_no_nul, hd]

theorem spawn_nul_program (c : FridaContext) (e : FridaEnv) (d prog : String)
    (argv : Option (List String)) (hd : hasNul d = false) (hp : hasNul prog = true) :
    spawn c e d prog argv = ⟨.error (nulMsg "program"), c, [], []⟩ := by
  simp [spawn, validate_no_nul, hd, hp]

theorem spawn_nul_argv (c : FridaContext) (e : FridaEnv) (d prog : String)
    (argv : Option (List String)) (msg : String) (hd : hasNul d = false)
    (hp : hasNul prog = false) (ha : validate_argv 0 (argv.getD []) = .error msg) :
    spawn c e d prog argv = ⟨.error msg, { c with process_list_cache := none }, [], []⟩ := by
  simp [spawn, validate_no_nul, hd, hp, ha]

theorem validate_argv_err (l : List String) : ∀ n, (∃ a ∈ l, hasNul a = true) →
    ∃ i : Nat, validate_argv n l = .error (nulMsg ("argv[" ++ toString i ++ "]")) := by
  induction l with
  | nil =>
    intro n h
    simp at h
  | cons hd tl ih =>
    intro n h
    cases hh : hasNul hd with
    | true => exact ⟨n, by simp [validate_argv, validate_no_nul, hh]⟩
    | false =>
      have h' : ∃ a ∈ tl, hasNul a = true := by
        rcases h with ⟨a, ha, hna⟩
        rcases List.mem_cons.mp ha with he | ha'
        · rw [he] at hna
          rw [hh] at hna
          cases hna
        · exact ⟨a, ha', hna⟩
      obtain ⟨i, hi⟩ := ih (n + 1) h'
      exact ⟨i, by simp [validate_argv, validate_no_nul, hh, hi]⟩

/-- C3 counterexample: script_post with an unknown script id and a NUL byte in
the serialized message returns the unknown-handle error, not the
input-validation error the claim requires. -/
theorem C3_counterexample : ¬ C3Statement := by
  intro h
  obtain ⟨⟨label, hlabel⟩, -⟩ := h.2.2.2.2.2 initCtx okEnv 1 "\x00" none (by decide)
  have hres : (script_post initCtx okEnv 1 "\x00" none).res =
      .error ("Unknown script_id") := rfl
  rw [hres] at hlabel
  have heq : "Unknown script_id" = nulMsg label := by
    injection hlabel
  exact nulMsg_ne_unknown label heq.symm

/-- C3 (amended): a NUL byte in a string argument always makes the operation
fail without a single toolkit call; the error is the InputValidation message
for list_processes, attach, spawn, resume and kill, while for script_post the
unknown-script and detached-session checks run first, so their errors take
precedence; once those checks pass, a NUL in the serialized message yields the
InputValidation error. -/
theorem C3_nul_validation_amended :
    (∀ c e d, hasNul d = true →
       list_processes c e d = ⟨.error (nulMsg "device_id"), c, [], []⟩) ∧
    (∀ c e d p, hasNul d = true →
       attach c e d p = ⟨.error (nulMsg "device_id"), c, [], []⟩) ∧
    (∀ c e d p, hasNul d = true →
       resume c e d p = ⟨.error (nulMsg "device_id"), c, [], []⟩) ∧
    (∀ c e d p, hasNul d = true →
       kill c e d p = ⟨.error (nulMsg "device_id"), c, [], []⟩) ∧
    (∀ c e d prog argv,
       (hasNul d = true ∨ hasNul prog = true ∨ ∃ a ∈ argv.getD [], hasNul a = true) →
       (∃ label, (spawn c e d prog argv).res = .error (nulMsg label)) ∧
         (spawn c e d prog argv).calls = []) ∧
    (∀ c e i m dat, hasNul m = true →
       (script_post c e i m dat).calls = [] ∧
       ∃ msg, (script_post c e i m dat).res = .error msg) ∧
    (∀ c e i m dat r rr, hasNul m = true → alGet c.scripts i = some r →
       alGet c.sessions r.session_id = some rr → e.is_detached r.session_id = false →
       (script_post c e i m dat).res = .error (nulMsg "message")) := by
  refine ⟨?_, ?_, ?_, ?_, ?_, ?_, ?_⟩
  · intro c e d h
    simp [list_processes, validate_no_nul, h]
  · intro c e d p h
    simp [attach, validate_no_nul, h]
  · intro c e d p h
    simp [resume, validate_no_nul, h]
  · intro c e d p h
    simp [kill, validate_no_nul, h]
  · intro c e d prog argv h
    cases hd : hasNul d with
    | true =>
      rw [spawn_nul_device c e d prog argv hd]
      exact ⟨⟨"device_id", rfl⟩, rfl⟩
    | false =>
      cases hp : hasNul prog with
      | true =>
        rw [spawn_nul_program c e d prog argv hd hp]
        exact ⟨⟨"program", rfl⟩, rfl⟩
      | false =>
        have hhead : ∃ a ∈ argv.getD [], hasNul a = true := by
          rcases h with h | h | h
          · rw [hd] at h
            cases h
          · rw [hp] at h
            cases h
          · exact h
        obtain ⟨i, hi⟩ := validate_argv_err (argv.getD []) 0 hhead
        rw [spawn_nul_argv c e d prog argv _ hd hp hi]
        exact ⟨⟨"argv[" ++ toString i ++ "]", rfl⟩, rfl⟩
  · intro c e i m dat hm
    cases hg : alGet c.scripts i with
    | none =>
      rw [script_post_unknown c e i m dat hg]
      exact ⟨rfl, _, rfl⟩
    | some r =>
      cases hs : alGet c.sessions r.session_id with
      | none =>
        have heq : script_post c e i m dat = ⟨.error ("Session is detached"), c, [], []⟩ := by
          simp [script_post, hg, hs]
        rw [heq]
        exact ⟨rfl, _, rfl⟩
      | some rr =>
        cases hd : e.is_detached r.session_id with
        | true =>
          have heq : script_post c e i m dat =
              ⟨.error ("Session is detached"), c, [], []⟩ := by
            simp [script_post, hg, hs, hd]
          rw [heq]
          exact ⟨rfl, _, rfl⟩
        | false =>
          have heq : script_post c e i m dat = ⟨.error (nulMsg "message"), c, [], []⟩ := by
            simp [script_post, hg, hs, hd, validate_no_nul, hm]
          rw [heq]
          exact ⟨rfl, _, rfl⟩
  · intro c e i m dat r rr hm hg hs hd
    simp [script_post, hg, hs, hd, validate_no_nul, hm]

theorem C3_witness :
    list_processes initCtx okEnv "a\x00b" = ⟨.error (nulMsg "device_id"), initCtx, [], []⟩ ∧
    (spawn initCtx okEnv "local" "prog" (some ["a\x00b"])).calls = [] ∧
    (∃ label, (spawn initCtx okEnv "local" "prog" (some ["a\x00b"])).res =
      .error (nulMsg label)) ∧
    (script_post ctx1s okEnv 1 "a\x00b" none).res = .error (nulMsg "message") := by
  obtain ⟨h1, h2, h3, h4, h5, h6, h7⟩ := C3_nul_validation_amended
  obtain ⟨hex, hcalls⟩ := h5 initCtx okEnv "local" "prog" (some ["a\x00b"])
    (Or.inr (Or.inr ⟨"a\x00b", by simp, by decide⟩))
  exact ⟨h1 initCtx okEnv "a\x00b" (by decide), hcalls, hex,
    h7 ctx1s okEnv 1 "a\x00b" none ⟨1⟩ ⟨"local", 10, [1]⟩ (by decide) rfl rfl rfl⟩

/-- C8 counterexample: spawn clears the process cache before validating argv, so
a spawn rejected for a NUL byte in an argv element does not leave the cache
unchanged. -/
theorem C8_counterexample : ¬ C8Statement := by
  intro h
  obtain ⟨msg, hres, hcache⟩ := h cacheCtx okEnv "local" "prog" (some ["\x00"])
    ⟨"\x00", by simp, by decide⟩
  have h1 : (spawn cacheCtx okEnv "local" "prog" (some ["\x00"])).ctx.process_list_cache
      = none := rfl
  rw [h1] at hcache
  have h2 : cacheCtx.process_list_cache = some ⟨"local", 100, [⟨7, "proc"⟩]⟩ := rfl
  rw [h2] at hcache
  cases hcache

/-- C8 (amended): spawn validates device_id and program before invalidating the
process cache (so those rejections leave the state untouched), but validates
argv elements only after clearing the cache: a spawn rejected because an argv
element contains a NUL byte leaves the process cache cleared, not unchanged,
and performs no toolkit call. -/
theorem C8_spawn_validation_amended (c : FridaContext) (e : FridaEnv) (d prog : String)
    (argv : Option (List String)) :
    (hasNul d = true → spawn c e d prog argv = ⟨.error (nulMsg "device_id"), c, [], []⟩) ∧
    (hasNul d = false → hasNul prog = true →
       spawn c e d prog argv = ⟨.error (nulMsg "program"), c, [], []⟩) ∧
    (hasNul d = false → hasNul prog = false →
       (∃ a ∈ argv.getD [], hasNul a = true) →
       ∃ i : Nat, spawn c e d prog argv =
         ⟨.error (nulMsg ("argv[" ++ toString i ++ "]")),
          { c with process_list_cache := none }, [], []⟩) := by
  refine ⟨spawn_nul_device c e d prog argv, spawn_nul_program c e d prog argv, ?_⟩
  intro hd hp hargv
  obtain ⟨i, hi⟩ := validate_argv_err (argv.getD []) 0 hargv
  exact ⟨i, spawn_nul_argv c e d prog argv _ hd hp hi⟩

theorem C8_witness :
    (spawn cacheCtx okEnv "local" "prog" (some ["a\x00b"])).ctx.process_list_cache = none ∧
    spawn cacheCtx okEnv "local" "pro\x00g" none =
      ⟨.error (nulMsg "program"), cacheCtx, [], []⟩ := by
  obtain ⟨i, hi⟩ := (C8_spawn_validation_amended cacheCtx okEnv "local" "prog"
    (some ["a\x00b"])).2.2 rfl rfl ⟨"a\x00b", by simp, by decide⟩
  refine ⟨?_, (C8_spawn_validation_amended cacheCtx okEnv "local" "pro\x00g" none).2.1
    rfl rfl⟩
  rw [hi]

theorem unload_script_counters (c : FridaContext) (e : FridaEnv) (i : Nat) :
    (unload_script c e i).ctx.next_session_id = c.next_session_id ∧
    (unload_script c e i).ctx.next_script_id = c.next_script_id := by
  rcases unload_cases c e i with ⟨_, hu⟩ | ⟨r, res, cs, hg, hu⟩ <;> rw [hu] <;> exact ⟨rfl, rfl⟩

theorem unload_many_counters (e : FridaEnv) (l : List Nat) :
    ∀ c : FridaContext,
      (unload_many e c l).1.next_session_id = c.next_session_id ∧
      (unload_many e c l).1.next_script_id = c.next_script_id := by
  induction l with
  | nil =>
    intro c
    exact ⟨rfl, rfl⟩
  | cons i rest ih =>
    intro c
    have hstep : (unload_many e c (i :: rest)).1 =
        (unload_many e (unload_script c e i).ctx rest).1 := by
      simp [unload_many]
    rw [hstep]
    obtain ⟨ha, hb⟩ := ih (unload_script c e i).ctx
    obtain ⟨hc', hd'⟩ := unload_script_counters c e i
    exact ⟨ha.trans hc', hb.trans hd'⟩

theorem detach_counters (c : FridaContext) (e : FridaEnv) (sid : Nat) :
    (detach c e sid).ctx.next_session_id = c.next_session_id ∧
    (detach c e sid).ctx.next_script_id = c.next_script_id := by
  unfold detach
  dsimp only
  repeat' split
  all_goals
    first
      | exact ⟨rfl, rfl⟩
      | exact unload_many_counters e _ c

theorem applyAct_counters (c : FridaContext) (e : FridaEnv) (a : Act)
    (hok : CountersOk c) :
    CountersOk (applyAct c e a) ∧
    c.next_session_id ≤ (applyAct c e a).next_session_id ∧
    c.next_script_id ≤ (applyAct c e a).next_script_id := by
  obtain ⟨hs, hc⟩ := hok
  cases a with
  | list_processes d =>
    rcases list_processes_state c e d with h | h <;>
      (refine ⟨⟨?_, ?_⟩, ?_, ?_⟩ <;> simp [applyAct, h, hs, hc])
  | attach d p =>
    rcases attach_cases c e d p with ⟨msg, cs, hA⟩ | ⟨msg, cs, b, hA, hb⟩ | hA
    · refine ⟨⟨?_, ?_⟩, ?_, ?_⟩ <;> simp [applyAct, hA, hs, hc]
    · have hnew : applyAct c e (Act.attach d p) = (attach c e d p).ctx := rfl
      rcases hb with hb | hb <;>
        (refine ⟨⟨?_, ?_⟩, ?_, ?_⟩ <;>
          simp [hnew, hA, hb, satAdd1_le_max, le_satAdd1 _ hs, le_satAdd1 _ hc, hs, hc])
    · have hnew : applyAct c e (Act.attach d p) = (attach c e d p).ctx := rfl
      refine ⟨⟨?_, ?_⟩, ?_, ?_⟩ <;>
        simp [hnew, hA, satAdd1_le_max, le_satAdd1 _ hs, le_satAdd1 _ hc]
  | detach s =>
    obtain ⟨h1, h2⟩ := detach_counters c e s
    have hnew : applyAct c e (Act.detach s) = (detach c e s).ctx := rfl
    rw [hnew]
    exact ⟨⟨h1 ▸ hs, h2 ▸ hc⟩, le_of_eq h1.symm, le_of_eq h2.symm⟩
  | load_default_script s =>
    have hnew : applyAct c e (Act.load_default_script s) = (load_default_script c e s).ctx := rfl
    rcases load_cases c e s with ⟨msg, hL⟩ | ⟨msg, cs, hL⟩ | ⟨_, _, hL⟩ <;>
      (refine ⟨⟨?_, ?_⟩, ?_, ?_⟩ <;>
        simp [hnew, hL, satAdd1_le_max, le_satAdd1 _ hc, hs, hc])
  | unload_script i =>
    obtain ⟨h1, h2⟩ := unload_script_counters c e i
    have hnew : applyAct c e (Act.unload_script i) = (unload_script c e i).ctx := rfl
    rw [hnew]
    exact ⟨⟨h1 ▸ hs, h2 ▸ hc⟩, le_of_eq h1.symm, le_of_eq h2.symm⟩
  | script_post i m dat =>
    have hnew : applyAct c e (Act.script_post i m dat) = (script_post c e i m dat).ctx := rfl
    rw [hnew, script_post_state]
    exact ⟨⟨hs, hc⟩, le_refl _, le_refl _⟩
  | spawn d prog argv =>
    rcases spawn_state c e d prog argv with h | h <;>
      (refine ⟨⟨?_, ?_⟩, ?_, ?_⟩ <;> simp [applyAct, h, hs, hc])
  | resume d p =>
    have hnew : applyAct c e (Act.resume d p) = (resume c e d p).ctx := rfl
    rw [hnew, resume_state]
    exact ⟨⟨hs, hc⟩, le_refl _, le_refl _⟩
  | kill d p =>
    rcases kill_state c e d p with h | h <;>
      (refine ⟨⟨?_, ?_⟩, ?_, ?_⟩ <;> simp [applyAct, h, hs, hc])

theorem countersOk_init : CountersOk initCtx := by
  constructor
  · show (1 : Nat) ≤ U64MAX
    rw [u64max_eq]
    omega
  · show (1 : Nat) ≤ U64MAX
    rw [u64max_eq]
    omega

theorem reach_counters (c c' : FridaContext) (h : Reach c c') (hok : CountersOk c) :
    CountersOk c' ∧ c.next_session_id ≤ c'.next_session_id ∧
    c.next_script_id ≤ c'.next_script_id := by
  induction h with
  | refl => exact ⟨hok, le_refl _, le_refl _⟩
  | step c1 env a hr ih =>
    obtain ⟨h1, h2, h3⟩ := ih
    obtain ⟨g1, g2, g3⟩ := applyAct_counters c1 env a h1
    exact ⟨g1, le_trans h2 g2, le_trans h3 g3⟩

theorem sessionIdOf_spec (c : FridaContext) (e : FridaEnv) (a : Act) (i : Nat)
    (h : sessionIdOf c e a = some i) :
    i = c.next_session_id ∧
    (applyAct c e a).next_session_id = satAdd1 c.next_session_id := by
  cases a with
  | attach d p =>
    simp only [sessionIdOf] at h
    rcases attach_cases c e d p with ⟨msg, cs, hA⟩ | ⟨msg, cs, b, hA, hb⟩ | hA
    · rw [hA] at h
      simp at h
    · rw [hA] at h
      simp at h
    · rw [hA] at h
      simp only at h
      have hi : i = c.next_session_id := by simpa using h.symm
      refine ⟨hi, ?_⟩
      have hnew : applyAct c e (Act.attach d p) = (attach c e d p).ctx := rfl
      rw [hnew, hA]
  | list_processes d => exact absurd h (by simp [sessionIdOf])
  | detach s => exact absurd h (by simp [sessionIdOf])
  | load_default_script s => exact absurd h (by simp [sessionIdOf])
  | unload_script j => exact absurd h (by simp [sessionIdOf])
  | script_post j m dat => exact absurd h (by simp [sessionIdOf])
  | spawn d prog argv => exact absurd h (by simp [sessionIdOf])
  | resume d p => exact absurd h (by simp [sessionIdOf])
  | kill d p => exact absurd h (by simp [sessionIdOf])

theorem scriptIdOf_spec (c : FridaContext) (e : FridaEnv) (a : Act) (i : Nat)
    (h : scriptIdOf c e a = some i) :
    i = c.next_script_id ∧
    (applyAct c e a).next_script_id = satAdd1 c.next_script_id := by
  cases a with
  | attach d p =>
    simp only [scriptIdOf] at h
    rcases attach_cases c e d p with ⟨msg, cs, hA⟩ | ⟨msg, cs, b, hA, hb⟩ | hA
    · rw [hA] at h
      simp at h
    · rw [hA] at h
      simp at h
    · rw [hA] at h
      simp only at h
      have hi : i = c.next_script_id := by simpa using h.symm
      refine ⟨hi, ?_⟩
      have hnew : applyAct c e (Act.attach d p) = (attach c e d p).ctx := rfl
      rw [hnew, hA]
  | load_default_script s =>
    simp only [scriptIdOf] at h
    rcases load_cases c e s with ⟨msg, hL⟩ | ⟨msg, cs, hL⟩ | ⟨_, _, hL⟩
    · rw [hL] at h
      simp at h
    · rw [hL] at h
      simp at h
    · rw [hL] at h
      simp only at h
      have hi : i = c.next_script_id := by simpa using h.symm
      refine ⟨hi, ?_⟩
      have hnew : applyAct c e (Act.load_default_script s) = (load_default_script c e s).ctx := rfl
      rw [hnew, hL]
  | list_processes d => exact absurd h (by simp [scriptIdOf])
  | detach s => exact absurd h (by simp [scriptIdOf])
  | unload_script j => exact absurd h (by simp [scriptIdOf])
  | script_post j m dat => exact absurd h (by simp [scriptIdOf])
  | spawn d prog argv => exact absurd h (by simp [scriptIdOf])
  | resume d p => exact absurd h (by simp [scriptIdOf])
  | kill d p => exact absurd h (by simp [scriptIdOf])

theorem ctxN_zero : ctxN 0 = initCtx := by
  unfold ctxN initCtx
  have h : min (1 + 0) U64MAX = 1 := by
    rw [u64max_eq]
    omega
  rw [h]

theorem step_ctxN (n : Nat) :
    applyAct (ctxN n) createFailEnv (Act.attach "d" 0) = ctxN (n + 1) := by
  have hsat : satAdd1 (min (1 + n) U64MAX) = min (1 + (n + 1)) U64MAX := by
    unfold satAdd1
    rw [u64max_eq]
    omega
  have hV : hasNul "d" = false := by decide
  have h1 : strContainsSub "agent" missingSentinel = false := by decide
  have h2 : trimEmpty "agent" = false := by decide
  have h3 : hasNul "agent" = false := by decide
  simp [applyAct, attach, validate_no_nul, createFailEnv, okEnv, load_default_script,
    hV, h1, h2, h3, ctxN, alPut, alGet, alDel, hsat]

theorem reach_ctxN (n : Nat) : Reach initCtx (ctxN n) := by
  induction n with
  | zero =>
    rw [ctxN_zero]
    exact Reach.refl initCtx
  | succ n ih =>
    have h := Reach.step initCtx (ctxN n) createFailEnv (Act.attach "d" 0) ih
    rwa [step_ctxN] at h

theorem ctxSat_eq : ctxN (U64MAX - 1) = ctxSat := by
  unfold ctxN ctxSat
  have h : min (1 + (U64MAX - 1)) U64MAX = U64MAX := by
    rw [u64max_eq]
    omega
  rw [h]

theorem reach_ctxSat : Reach initCtx ctxSat := by
  have h := reach_ctxN (U64MAX - 1)
  rwa [ctxSat_eq] at h

/-- C7 counterexample: the id counters advance with `saturating_add(1)`, so in
the state reachable after 2^64 - 2 attach calls whose script load failed both
counters sit at u64::MAX; from there two successful attaches both return
session_id u64::MAX, refuting strict monotonicity and non-reuse as stated. -/
theorem C7_counterexample : ¬ C7Statement := by
  intro h
  have h1 : sessionIdOf ctxSat okEnv (Act.attach "d" 0) = some U64MAX := by decide
  have h2 : sessionIdOf (applyAct ctxSat okEnv (Act.attach "d" 0)) okEnv
      (Act.attach "d" 0) = some U64MAX := by decide
  have hlt := h.2.1 ctxSat okEnv (Act.attach "d" 0) U64MAX
    (applyAct ctxSat okEnv (Act.attach "d" 0)) okEnv (Act.attach "d" 0) U64MAX
    reach_ctxSat h1 (Reach.refl _) h2
  exact lt_irrefl _ hlt

/-- C7 (amended): both id counters start at 1; every session id (resp. script
id) handed out by an operation equals the current counter, which is then
advanced with `saturating_add(1)`; hence ids are strictly increasing and never
reused as long as the id handed out is below u64::MAX — only the value
u64::MAX itself can be returned more than once, after 2^64 - 1 allocations of
the same kind. -/
theorem C7_ids_monotone_amended :
    (initCtx.next_session_id = 1 ∧ initCtx.next_script_id = 1) ∧
    (∀ c1 env1 a1 i1 c2 env2 a2 i2, Reach initCtx c1 →
       sessionIdOf c1 env1 a1 = some i1 → i1 < U64MAX →
       Reach (applyAct c1 env1 a1) c2 →
       sessionIdOf c2 env2 a2 = some i2 → i1 < i2) ∧
    (∀ c1 env1 a1 i1 c2 env2 a2 i2, Reach initCtx c1 →
       scriptIdOf c1 env1 a1 = some i1 → i1 < U64MAX →
       Reach (applyAct c1 env1 a1) c2 →
       scriptIdOf c2 env2 a2 = some i2 → i1 < i2) := by
  refine ⟨⟨rfl, rfl⟩, ?_, ?_⟩
  · intro c1 env1 a1 i1 c2 env2 a2 i2 hr1 hid1 hlt hr2 hid2
    obtain ⟨heq1, hpost1⟩ := sessionIdOf_spec c1 env1 a1 i1 hid1
    obtain ⟨heq2, -⟩ := sessionIdOf_spec c2 env2 a2 i2 hid2
    have hok1 : CountersOk c1 := (reach_counters _ _ hr1 countersOk_init).1
    have hokpost : CountersOk (applyAct c1 env1 a1) :=
      (applyAct_counters c1 env1 a1 hok1).1
    obtain ⟨-, hm, -⟩ := reach_counters _ _ hr2 hokpost
    have hp1 : (applyAct c1 env1 a1).next_session_id = i1 + 1 := by
      rw [hpost1, ← heq1, satAdd1_of_lt _ hlt]
    omega
  · intro c1 env1 a1 i1 c2 env2 a2 i2 hr1 hid1 hlt hr2 hid2
    obtain ⟨heq1, hpost1⟩ := scriptIdOf_spec c1 env1 a1 i1 hid1
    obtain ⟨heq2, -⟩ := scriptIdOf_spec c2 env2 a2 i2 hid2
    have hok1 : CountersOk c1 := (reach_counters _ _ hr1 countersOk_init).1
    have hokpost : CountersOk (applyAct c1 env1 a1) :=
      (applyAct_counters c1 env1 a1 hok1).1
    obtain ⟨-, -, hm⟩ := reach_counters _ _ hr2 hokpost
    have hp1 : (applyAct c1 env1 a1).next_script_id = i1 + 1 := by
      rw [hpost1, ← heq1, satAdd1_of_lt _ hlt]
    omega

theorem C7_witness :
    sessionIdOf initCtx okEnv (Act.attach "local" 10) = some 1 ∧
    sessionIdOf (applyAct initCtx okEnv (Act.attach "local" 10)) okEnv
      (Act.attach "local" 11) = some 2 ∧
    (1 : Nat) < 2 := by
  refine ⟨rfl, rfl, ?_⟩
  exact C7_ids_monotone_amended.2.1 initCtx okEnv (Act.attach "local" 10) 1
    (applyAct initCtx okEnv (Act.attach "local" 10)) okEnv (Act.attach "local" 11) 2
    (Reach.refl _) rfl (by rw [u64max_eq]; omega) (Reach.refl _) rfl

/-! Preservation of well-formedness below counter saturation, and claim C1. -/

/-- Transfer of well-formedness between states agreeing on every registry
field and both counters. -/
theorem wf_fields_eq (c c2 : FridaContext) (hsess : c2.sessions = c.sessions)
    (hscr : c2.scripts = c.scripts) (halloc : c2.allocated = c.allocated)
    (hns : c2.next_session_id = c.next_session_id)
    (hnc : c2.next_script_id = c.next_script_id) (hwf : WellFormed c) :
    WellFormed c2 := by
  refine ⟨?_, ?_, ?_, ?_, ?_, ?_, ?_, ?_, ?_⟩
  · rw [hsess]
    exact hwf.nodup_sessions
  · rw [hscr]
    exact hwf.nodup_scripts
  · rw [hsess, hns]
    exact hwf.sessions_bound
  · rw [hscr, hnc]
    exact hwf.scripts_bound
  · rw [hsess, hnc]
    exact hwf.sids_bound
  · rw [hsess]
    exact hwf.sids_nodup
  · exact consistent_transfer c c2 hsess hscr hwf.consistent
  · rw [halloc, hscr]
    exact hwf.alloc_iff
  · rw [halloc]
    exact hwf.alloc_nodup

/-- Well-formedness is preserved by `load_default_script` while the script
counter is below `u64::MAX`. -/
theorem load_wf (c : FridaContext) (e : FridaEnv) (s : Nat) (hwf : WellFormed c)
    (hbc : c.next_script_id < U64MAX) : WellFormed (load_default_script c e s).ctx := by
  have hsat : satAdd1 c.next_script_id = c.next_script_id + 1 := satAdd1_of_lt _ hbc
  have hfreshs : c.next_script_id ∉ alKeys c.scripts := fun hmem =>
    absurd (hwf.scripts_bound _ hmem) (lt_irrefl _)
  rcases load_cases c e s with ⟨msg, hL⟩ | ⟨msg, cs, hL⟩ | ⟨⟨r0, hr0⟩, hdet, hL⟩
  · rw [hL]
    exact hwf
  · rw [hL]
    refine ⟨hwf.nodup_sessions, hwf.nodup_scripts, hwf.sessions_bound, ?_, ?_,
      hwf.sids_nodup, consistent_transfer c _ rfl rfl hwf.consistent,
      hwf.alloc_iff, hwf.alloc_nodup⟩
    · intro k hk
      dsimp only at hk ⊢
      rw [hsat]
      exact Nat.lt_succ_of_lt (hwf.scripts_bound k hk)
    · intro k r h j hj
      dsimp only at h ⊢
      rw [hsat]
      exact Nat.lt_succ_of_lt (hwf.sids_bound k r h j hj)
  · rw [hL]
    have hc := load_consistent c e s hwf.consistent hwf.scripts_bound hwf.sids_bound
    rw [hL] at hc
    refine ⟨?_, ?_, ?_, ?_, ?_, ?_, hc, ?_, ?_⟩
    · dsimp only
      rw [alKeys_alModify]
      exact hwf.nodup_sessions
    · dsimp only
      exact nodup_alKeys_alPut _ _ _ hwf.nodup_scripts
    · intro k hk
      dsimp only at hk ⊢
      rw [alKeys_alModify] at hk
      exact hwf.sessions_bound k hk
    · intro k hk
      dsimp only at hk ⊢
      rw [hsat]
      rcases (mem_alKeys_alPut _ _ _ _).mp hk with he | hm
      · omega
      · exact Nat.lt_succ_of_lt (hwf.scripts_bound k hm)
    · intro k r h j hj
      dsimp only at h ⊢
      rw [hsat]
      rw [alGet_alModify] at h
      by_cases hks : s = k
      · rw [if_pos hks] at h
        cases hg : alGet c.sessions s with
        | none =>
          rw [hg] at h
          cases h
        | some rr =>
          simp only [hg, Option.map_some'] at h
          injection h with h2
          subst h2
          dsimp only at hj
          rcases List.mem_append.mp hj with hi1 | hi2
          · exact Nat.lt_succ_of_lt (hwf.sids_bound s rr hg j hi1)
          · have hje : j = c.next_script_id := by simpa using hi2
            omega
      · rw [if_neg hks] at h
        exact Nat.lt_succ_of_lt (hwf.sids_bound k r h j hj)
    · intro k r h
      dsimp only at h
      rw [alGet_alModify] at h
      by_cases hks : s = k
      · rw [if_pos hks] at h
        cases hg : alGet c.sessions s with
        | none =>
          rw [hg] at h
          cases h
        | some rr =>
          simp only [hg, Option.map_some'] at h
          injection h with h2
          subst h2
          dsimp only
          rw [List.nodup_append]
          refine ⟨hwf.sids_nodup s rr hg, List.nodup_singleton _, ?_⟩
          intro x hx hmem
          have hxe : x = c.next_script_id := by simpa using hmem
          subst hxe
          exact absurd (hwf.sids_bound s rr hg _ hx) (lt_irrefl _)
      · rw [if_neg hks] at h
        exact hwf.sids_nodup k r h
    · intro j
      dsimp only
      rw [List.mem_cons, mem_alKeys_alPut]
      constructor
      · rintro (he | hm)
        · exact Or.inl he
        · exact Or.inr ((hwf.alloc_iff j).mp hm)
      · rintro (he | hm)
        · exact Or.inl he
        · exact Or.inr ((hwf.alloc_iff j).mpr hm)
    · dsimp only
      rw [List.nodup_cons]
      exact ⟨fun hmem => hfreshs ((hwf.alloc_iff _).mp hmem), hwf.alloc_nodup⟩

/-- Well-formedness is preserved by `unload_script`. -/
theorem unload_wf (c : FridaContext) (e : FridaEnv) (i : Nat) (hwf : WellFormed c) :
    WellFormed (unload_script c e i).ctx := by
  rcases unload_cases c e i with ⟨hg, hu⟩ | ⟨r, res, cs, hg, hu⟩
  · rw [hu]
    exact hwf
  · have hcon := unload_consistent c e i hwf.consistent hwf.nodup_scripts
    rw [hu] at hcon
    rw [hu]
    refine ⟨?_, ?_, ?_, ?_, ?_, ?_, hcon, ?_, ?_⟩
    · dsimp only
      rw [alKeys_alModify]
      exact hwf.nodup_sessions
    · dsimp only
      exact nodup_alKeys_alDel _ _ hwf.nodup_scripts
    · intro k hk
      dsimp only at hk ⊢
      rw [alKeys_alModify] at hk
      exact hwf.sessions_bound k hk
    · intro k hk
      dsimp only at hk ⊢
      exact hwf.scripts_bound k ((mem_alKeys_alDel _ _ _ hwf.nodup_scripts).mp hk).1
    · intro k rr h j hj
      dsimp only at h ⊢
      rw [alGet_alModify] at h
      by_cases hks : r.session_id = k
      · rw [if_pos hks] at h
        cases hgg : alGet c.sessions r.session_id with
        | none =>
          rw [hgg] at h
          cases h
        | some rr0 =>
          simp only [hgg, Option.map_some'] at h
          injection h with h2
          subst h2
          dsimp only at hj
          exact hwf.sids_bound r.session_id rr0 hgg j (List.mem_of_mem_filter hj)
      · rw [if_neg hks] at h
        exact hwf.sids_bound k rr h j hj
    · intro k rr h
      dsimp only at h
      rw [alGet_alModify] at h
      by_cases hks : r.session_id = k
      · rw [if_pos hks] at h
        cases hgg : alGet c.sessions r.session_id with
        | none =>
          rw [hgg] at h
          cases h
        | some rr0 =>
          simp only [hgg, Option.map_some'] at h
          injection h with h2
          subst h2
          dsimp only
          exact (hwf.sids_nodup r.session_id rr0 hgg).filter _
      · rw [if_neg hks] at h
        exact hwf.sids_nodup k rr h
    · intro j
      dsimp only
      rw [List.Nodup.mem_erase_iff hwf.alloc_nodup,
        mem_alKeys_alDel _ _ _ hwf.nodup_scripts]
      constructor
      · rintro ⟨hne, hmem⟩
        exact ⟨(hwf.alloc_iff j).mp hmem, hne⟩
      · rintro ⟨hmem, hne⟩
        exact ⟨hne, (hwf.alloc_iff j).mpr hmem⟩
    · dsimp only
      exact hwf.alloc_nodup.erase i

/-- Well-formedness is preserved by `attach` while both counters are below
`u64::MAX`. -/
theorem attach_wf (c : FridaContext) (e : FridaEnv) (d : String) (p : Nat)
    (hwf : WellFormed c) (hbs : c.next_session_id < U64MAX)
    (hbc : c.next_script_id < U64MAX) : WellFormed (attach c e d p).ctx := by
  have hfresh : c.next_session_id ∉ alKeys c.sessions := fun hmem =>
    absurd (hwf.sessions_bound _ hmem) (lt_irrefl _)
  have hfreshs : c.next_script_id ∉ alKeys c.scripts := fun hmem =>
    absurd (hwf.scripts_bound _ hmem) (lt_irrefl _)
  have hsats : satAdd1 c.next_session_id = c.next_session_id + 1 := satAdd1_of_lt _ hbs
  have hsatc : satAdd1 c.next_script_id = c.next_script_id + 1 := satAdd1_of_lt _ hbc
  rcases attach_cases c e d p with ⟨msg, cs, hA⟩ | ⟨msg, cs, b, hA, hb⟩ | hA
  · rw [hA]
    exact hwf
  · rw [hA]
    have hE := alDel_alPut_fresh c.sessions c.next_session_id ⟨d, p, []⟩ hfresh
    refine ⟨?_, hwf.nodup_scripts, ?_, ?_, ?_, ?_, ?_, hwf.alloc_iff, hwf.alloc_nodup⟩
    · dsimp only
      rw [hE]
      exact hwf.nodup_sessions
    · intro k hk
      dsimp only at hk ⊢
      rw [hE] at hk
      rw [hsats]
      exact Nat.lt_succ_of_lt (hwf.sessions_bound k hk)
    · intro k hk
      dsimp only at hk ⊢
      rcases hb with hb | hb <;> subst hb
      · exact hwf.scripts_bound k hk
      · rw [hsatc]
        exact Nat.lt_succ_of_lt (hwf.scripts_bound k hk)
    · intro k r h j hj
      dsimp only at h ⊢
      rw [hE] at h
      rcases hb with hb | hb <;> subst hb
      · exact hwf.sids_bound k r h j hj
      · rw [hsatc]
        exact Nat.lt_succ_of_lt (hwf.sids_bound k r h j hj)
    · intro k r h
      dsimp only at h
      rw [hE] at h
      exact hwf.sids_nodup k r h
    · refine consistent_transfer c _ ?_ rfl hwf.consistent
      dsimp only
      exact hE
  · have hcons : Consistent (attach c e d p).ctx :=
      wf_step_consistent c e (Act.attach d p) hwf
    rw [hA] at hcons
    rw [hA]
    refine ⟨?_, ?_, ?_, ?_, ?_, ?_, hcons, ?_, ?_⟩
    · dsimp only
      exact nodup_alKeys_alPut _ _ _ hwf.nodup_sessions
    · dsimp only
      exact nodup_alKeys_alPut _ _ _ hwf.nodup_scripts
    · intro k hk
      dsimp only at hk ⊢
      rw [hsats]
      rcases (mem_alKeys_alPut _ _ _ _).mp hk with he | hm
      · omega
      · exact Nat.lt_succ_of_lt (hwf.sessions_bound k hm)
    · intro k hk
      dsimp only at hk ⊢
      rw [hsatc]
      rcases (mem_alKeys_alPut _ _ _ _).mp hk with he | hm
      · omega
      · exact Nat.lt_succ_of_lt (hwf.scripts_bound k hm)
    · intro k r h j hj
      dsimp only at h ⊢
      rw [hsatc]
      rw [alGet_alPut] at h
      by_cases hks : c.next_session_id = k
      · rw [if_pos hks] at h
        injection h with h2
        subst h2
        dsimp only at hj
        have hje : j = c.next_script_id := by simpa using hj
        omega
      · rw [if_neg hks] at h
        exact Nat.lt_succ_of_lt (hwf.sids_bound k r h j hj)
    · intro k r h
      dsimp only at h
      rw [alGet_alPut] at h
      by_cases hks : c.next_session_id = k
      · rw [if_pos hks] at h
        injection h with h2
        subst h2
        exact List.nodup_singleton _
      · rw [if_neg hks] at h
        exact hwf.sids_nodup k r h
    · intro j
      dsimp only
      rw [List.mem_cons, mem_alKeys_alPut]
      constructor
      · rintro (he | hm)
        · exact Or.inl he
        · exact Or.inr ((hwf.alloc_iff j).mp hm)
      · rintro (he | hm)
        · exact Or.inl he
        · exact Or.inr ((hwf.alloc_iff j).mpr hm)
    · dsimp only
      rw [List.nodup_cons]
      exact ⟨fun hmem => hfreshs ((hwf.alloc_iff _).mp hmem), hwf.alloc_nodup⟩

/-- Well-formedness is preserved by `detach`. -/
theorem detach_wf (c : FridaContext) (e : FridaEnv) (sid : Nat) (hwf : WellFormed c) :
    WellFormed (detach c e sid).ctx := by
  cases hrec : alGet c.sessions sid with
  | none =>
    have heq : detach c e sid = ⟨.error ("Unknown session_id"), c, [], []⟩ := by
      simp [detach, hrec]
    rw [heq]
    exact hwf
  | some rec =>
    obtain ⟨h1, hids, h3, h4, h7, hnds, hnda, hc1, hc2⟩ :=
      unload_many_wf_spec c e sid rec hwf hrec
    obtain ⟨hok, hdisposed, hfail⟩ := detach_main c e sid rec hwf hrec
    obtain ⟨hcons1, hcons2⟩ := consistent_after_cleanup c e sid rec hwf hrec
    have nodS : (alKeys (unload_many e c rec.script_ids).1.sessions).Nodup := by
      rw [h7]
      exact hwf.nodup_sessions
    have hkeysS : ∀ j, j ∈ alKeys (unload_many e c rec.script_ids).1.scripts ↔
        j ∉ rec.script_ids ∧ j ∈ alKeys c.scripts := by
      intro j
      rw [mem_alKeys_iff_get, mem_alKeys_iff_get]
      by_cases hmem : j ∈ rec.script_ids
      · constructor
        · rintro ⟨v, hv⟩
          rw [h1 j, if_pos hmem] at hv
          cases hv
        · rintro ⟨hnot, -⟩
          exact absurd hmem hnot
      · constructor
        · rintro ⟨v, hv⟩
          rw [h1 j, if_neg hmem] at hv
          exact ⟨hmem, v, hv⟩
        · rintro ⟨-, v, hv⟩
          refine ⟨v, ?_⟩
          rw [h1 j, if_neg hmem]
          exact hv
    have hsid_mem : sid ∈ alKeys c.sessions := (mem_alKeys_iff_get _ _).mpr ⟨rec, hrec⟩
    have wfDel : WellFormed
        { (unload_many e c rec.script_ids).1 with
            sessions := alDel (unload_many e c rec.script_ids).1.sessions sid } := by
      refine ⟨?_, ?_, ?_, ?_, ?_, ?_, hcons1, ?_, ?_⟩
      · dsimp only
        exact nodup_alKeys_alDel _ _ nodS
      · dsimp only
        exact hnds
      · intro k hk
        dsimp only at hk ⊢
        rw [hc1]
        have hk2 := ((mem_alKeys_alDel _ _ _ nodS).mp hk).1
        rw [h7] at hk2
        exact hwf.sessions_bound k hk2
      · intro k hk
        dsimp only at hk ⊢
        rw [hc2]
        exact hwf.scripts_bound k ((hkeysS k).mp hk).2
      · intro k r h j hj
        dsimp only at h ⊢
        rw [hc2]
        rw [alGet_alDel _ _ _ nodS] at h
        by_cases hks : sid = k
        · rw [if_pos hks] at h
          cases h
        · rw [if_neg hks] at h
          rw [h3 k (fun he => hks he.symm)] at h
          exact hwf.sids_bound k r h j hj
      · intro k r h
        dsimp only at h
        rw [alGet_alDel _ _ _ nodS] at h
        by_cases hks : sid = k
        · rw [if_pos hks] at h
          cases h
        · rw [if_neg hks] at h
          rw [h3 k (fun he => hks he.symm)] at h
          exact hwf.sids_nodup k r h
      · intro j
        dsimp only
        rw [h4 j, hkeysS j]
        constructor
        · rintro ⟨hmem, hnot⟩
          exact ⟨hnot, (hwf.alloc_iff j).mp hmem⟩
        · rintro ⟨hnot, hmem⟩
          exact ⟨(hwf.alloc_iff j).mpr hmem, hnot⟩
      · dsimp only
        exact hnda
    have wfPut : WellFormed
        { (unload_many e c rec.script_ids).1 with
            sessions := alPut (alDel (unload_many e c rec.script_ids).1.sessions sid) sid
              ⟨rec.device_id, rec.pid, []⟩ } := by
      refine ⟨?_, ?_, ?_, ?_, ?_, ?_, hcons2, ?_, ?_⟩
      · dsimp only
        exact nodup_alKeys_alPut _ _ _ (nodup_alKeys_alDel _ _ nodS)
      · dsimp only
        exact hnds
      · intro k hk
        dsimp only at hk ⊢
        rw [hc1]
        rcases (mem_alKeys_alPut _ _ _ _).mp hk with he | hm
        · subst he
          exact hwf.sessions_bound _ hsid_mem
        · have hm2 := ((mem_alKeys_alDel _ _ _ nodS).mp hm).1
          rw [h7] at hm2
          exact hwf.sessions_bound k hm2
      · intro k hk
        dsimp only at hk ⊢
        rw [hc2]
        exact hwf.scripts_bound k ((hkeysS k).mp hk).2
      · intro k r h j hj
        dsimp only at h ⊢
        rw [hc2]
        rw [alGet_alPut] at h
        by_cases hks : sid = k
        · rw [if_pos hks] at h
          injection h with h2
          subst h2
          dsimp only at hj
          simp at hj
        · rw [if_neg hks, alGet_alDel _ _ _ nodS, if_neg hks] at h
          rw [h3 k (fun he => hks he.symm)] at h
          exact hwf.sids_bound k r h j hj
      · intro k r h
        dsimp only at h
        rw [alGet_alPut] at h
        by_cases hks : sid = k
        · rw [if_pos hks] at h
          injection h with h2
          subst h2
          exact List.nodup_nil
        · rw [if_neg hks, alGet_alDel _ _ _ nodS, if_neg hks] at h
          rw [h3 k (fun he => hks he.symm)] at h
          exact hwf.sids_nodup k r h
      · intro j
        dsimp only
        rw [h4 j, hkeysS j]
        constructor
        · rintro ⟨hmem, hnot⟩
          exact ⟨hnot, (hwf.alloc_iff j).mp hmem⟩
        · rintro ⟨hnot, hmem⟩
          exact ⟨(hwf.alloc_iff j).mpr hmem, hnot⟩
      · dsimp only
        exact hnda
    cases hsd : e.session_detach sid with
    | ok u =>
      cases u
      rw [hok hsd]
      exact wfDel
    | error msg =>
      cases hdet : e.is_detached sid with
      | true =>
        rw [hdisposed msg hsd hdet]
        exact wfDel
      | false =>
        rw [hfail msg hsd hdet]
        exact wfPut

/-- Well-formedness is preserved by every public operation while both id
counters are still below `u64::MAX`. -/
theorem wf_step_preserved (c : FridaContext) (e : FridaEnv) (a : Act)
    (hwf : WellFormed c) (hbs : c.next_session_id < U64MAX)
    (hbc : c.next_script_id < U64MAX) : WellFormed (applyAct c e a) := by
  cases a with
  | list_processes d =>
    rcases list_processes_state c e d with h | h <;>
      exact wf_fields_eq c _ (by simp [applyAct, h]) (by simp [applyAct, h])
        (by simp [applyAct, h]) (by simp [applyAct, h]) (by simp [applyAct, h]) hwf
  | attach d p => exact attach_wf c e d p hwf hbs hbc
  | detach sid => exact detach_wf c e sid hwf
  | load_default_script s => exact load_wf c e s hwf hbc
  | unload_script i => exact unload_wf c e i hwf
  | script_post i m dat =>
    exact wf_fields_eq c _ (by simp [applyAct, script_post_state])
      (by simp [applyAct, script_post_state]) (by simp [applyAct, script_post_state])
      (by simp [applyAct, script_post_state]) (by simp [applyAct, script_post_state]) hwf
  | spawn d prog argv =>
    rcases spawn_state c e d prog argv with h | h <;>
      exact wf_fields_eq c _ (by simp [applyAct, h]) (by simp [applyAct, h])
        (by simp [applyAct, h]) (by simp [applyAct, h]) (by simp [applyAct, h]) hwf
  | resume d p =>
    exact wf_fields_eq c _ (by simp [applyAct, resume_state])
      (by simp [applyAct, resume_state]) (by simp [applyAct, resume_state])
      (by simp [applyAct, resume_state]) (by simp [applyAct, resume_state]) hwf
  | kill d p =>
    rcases kill_state c e d p with h | h <;>
      exact wf_fields_eq c _ (by simp [applyAct, h]) (by simp [applyAct, h])
        (by simp [applyAct, h]) (by simp [applyAct, h]) (by simp [applyAct, h]) hwf

/-- C1 (counterexample): as stated over all reachable states the claim fails.
Once both id counters have saturated at u64::MAX, a successful attach followed
by a failed attach orphans a scripts entry: the second attach re-inserts its
session under the same saturated key u64::MAX (HashMap insert replaces the
existing entry), the immediate default-script load fails, and the rollback
removes that key, so the first attach's script stays registered while its
session is gone — the registry is no longer bidirectionally consistent. -/
theorem C1_counterexample : ¬ C1Statement := by
  intro h
  have hreach : Reach initCtx (applyAct ctxSat okEnv (Act.attach "d" 0)) :=
    Reach.step initCtx ctxSat okEnv (Act.attach "d" 0) reach_ctxSat
  have hcons := h (applyAct ctxSat okEnv (Act.attach "d" 0)) createFailEnv
    (Act.attach "d" 0) hreach
  have hscr : alGet (applyAct (applyAct ctxSat okEnv (Act.attach "d" 0)) createFailEnv
      (Act.attach "d" 0)).scripts U64MAX = some ⟨U64MAX⟩ := by decide
  obtain ⟨r, hr, -⟩ := hcons.2 U64MAX ⟨U64MAX⟩ hscr
  have hr2 : alGet (applyAct (applyAct ctxSat okEnv (Act.attach "d" 0)) createFailEnv
      (Act.attach "d" 0)).sessions U64MAX = some r := hr
  have hnone : alGet (applyAct (applyAct ctxSat okEnv (Act.attach "d" 0)) createFailEnv
      (Act.attach "d" 0)).sessions U64MAX = none := by decide
  rw [hnone] at hr2
  cases hr2

/-- C1 (amended): after every public operation run from a well-formed state —
under any toolkit behaviour and including every failure path — the registry is
bidirectionally consistent; moreover the initial state is well formed and
well-formedness is preserved by every operation while both id counters are
still below u64::MAX, so the consistency guarantee covers every execution that
never saturates a counter. -/
theorem C1_registry_consistent_amended :
    WellFormed initCtx ∧
    (∀ c e a, WellFormed c → Consistent (applyAct c e a)) ∧
    (∀ c e a, WellFormed c → c.next_session_id < U64MAX →
      c.next_script_id < U64MAX → WellFormed (applyAct c e a)) :=
  ⟨wellFormed_initCtx, wf_step_consistent, wf_step_preserved⟩

/-- Witness for the amended C1 theorem at a concrete input: one attach from the
initial state keeps the registry consistent and the state well formed. -/
theorem C1_witness :
    Consistent (applyAct initCtx okEnv (Act.attach "local" 10)) ∧
    WellFormed (applyAct initCtx okEnv (Act.attach "local" 10)) :=
  ⟨C1_registry_consistent_amended.2.1 initCtx okEnv (Act.attach "local" 10)
      wellFormed_initCtx,
   C1_registry_consistent_amended.2.2 initCtx okEnv (Act.attach "local" 10)
      wellFormed_initCtx (by decide) (by decide)⟩
